import Mathlib

/-!
Variant and VariantList (src/Utilities/Variant.h)

A shallow embedding of the tagged value container `Variant` and of the fixed
six-slot `VariantList`, followed by theorems about their accessors.

Conventions of the embedding

* `uint8_t` is `Fin 256`; the 16-byte union `m_var` is a list of exactly 16 bytes.
* `uint32_t` values are naturals below `2^32`, `int32_t` values are integers in
  `[-2^31, 2^31)`; a `float` is represented by its 32-bit IEEE-754 pattern, so
  storing and loading a float is a copy of four bytes.
* Multi-byte stores into `m_var` are little-endian.
* `assert` is modelled as a fatal stop: a method returns `Res.assertFailed st`
  where `st` is the state of the object at the moment the assertion fired.
* A method returning a reference into `m_var` is modelled as returning the value
  currently stored there together with the object state.
-/

namespace Proton

/-! ## Bytes and the 16-byte payload -/

/-- One `uint8_t`. -/
abbrev Byte := Fin 256

/-- The constant `C_VAR_SPACE_BYTES` (enough to fit a rect). -/
def C_VAR_SPACE_BYTES : Nat := 16

/-- The constant `C_MAX_VARIANT_LIST_PARMS`. -/
def C_MAX_VARIANT_LIST_PARMS : Nat := 6

/-- Truncation of a natural number to one byte. -/
def toByte (n : Nat) : Byte := ⟨n % 256, Nat.mod_lt n (by decide)⟩

/-- The four little-endian bytes of a 32-bit word. -/
def le32 (x : Nat) : List Byte :=
  [toByte x, toByte (x / 256), toByte (x / 65536), toByte (x / 16777216)]

/-- The number denoted by a little-endian byte string. -/
def fromLE : List Byte → Nat
  | [] => 0
  | b :: bs => b.val + 256 * fromLE bs

/-- Reinterpretation of an `int32_t` as the `uint32_t` with the same bits. -/
def toU32 (i : Int) : Nat := (i % 4294967296).toNat

/-- Reinterpretation of a `uint32_t` as the `int32_t` with the same bits. -/
def toI32 (u : Nat) : Int :=
  if u % 4294967296 < 2147483648 then ((u % 4294967296 : Nat) : Int)
  else ((u % 4294967296 : Nat) : Int) - 4294967296

/-- The union member `uint8_t m_var[C_VAR_SPACE_BYTES]`. -/
structure Payload where
  bytes : List Byte
  size_eq : bytes.length = C_VAR_SPACE_BYTES
deriving DecidableEq

/-- The C library routine `memcpy(dst, src, n)` on two payload buffers. -/
def memcpy (dst src : Payload) (n : Nat) : Payload :=
  ⟨src.bytes.take n ++ dst.bytes.drop n, by
    have h1 := dst.size_eq
    have h2 := src.size_eq
    simp only [List.length_append, List.length_take, List.length_drop, h1, h2]
    omega⟩

/-- The store `*((uint32_t*)m_var) = x`: four bytes at offset 0, the rest untouched. -/
def store32 (p : Payload) (x : Nat) : Payload :=
  ⟨le32 x ++ p.bytes.drop 4, by
    have h1 := p.size_eq
    simp only [List.length_append, List.length_drop, h1, le32, List.length_cons,
      List.length_nil, C_VAR_SPACE_BYTES]⟩

/-- The load `*((uint32_t*)m_var)`: the word held in the first four bytes. -/
def load32 (p : Payload) : Nat := fromLE (p.bytes.take 4)

/-! ## Variant -/

/-- The enumeration `Variant::eType`. -/
inductive eType where
  | TYPE_UNUSED
  | TYPE_FLOAT
  | TYPE_STRING
  | TYPE_VECTOR2
  | TYPE_VECTOR3
  | TYPE_UINT32
  | TYPE_ENTITY
  | TYPE_COMPONENT
  | TYPE_RECT
  | TYPE_INT32
deriving DecidableEq, Repr

open eType

/-- The data members of `class Variant`: `m_type`, `m_pVoid` (an address),
the union `m_var` and `m_string` (the bytes of the `std::string`). -/
structure Variant where
  m_type : eType
  m_pVoid : Nat
  m_var : Payload
  m_string : List Byte
deriving DecidableEq

/-- Outcome of a `Variant` method that may hit an `assert`. -/
inductive Res (α : Type) where
  | ok (ret : α) (st : Variant)
  | assertFailed (st : Variant)
deriving DecidableEq

namespace Variant

/-- Source: `void SetDefaults() { m_type = TYPE_UNUSED; }` -/
def SetDefaults (v : Variant) : Variant := { v with m_type := TYPE_UNUSED }

/-- Source: `void Reset() { m_type = TYPE_UNUSED; }` -/
def Reset (v : Variant) : Variant := { v with m_type := TYPE_UNUSED }

/-- Source: `eType GetType() const { return m_type; }` -/
def GetType (v : Variant) : eType := v.m_type

/-- Source: `void Set(float var)`; `var` is the bit pattern of the float. -/
def Set_float (v : Variant) (var : Nat) : Res Unit :=
  if v.m_type = TYPE_UNUSED ∨ v.m_type = TYPE_FLOAT then
    Res.ok () { v with m_type := TYPE_FLOAT, m_var := store32 v.m_var (var % 4294967296) }
  else Res.assertFailed v

/-- Source: `float& GetFloat()` -/
def GetFloat (v : Variant) : Res Nat :=
  match (if v.m_type = TYPE_UNUSED then Set_float v 0 else Res.ok () v) with
  | Res.assertFailed s => Res.assertFailed s
  | Res.ok _ s =>
    if s.m_type = TYPE_FLOAT then Res.ok (load32 s.m_var) s else Res.assertFailed s

/-- Source: `const float& GetFloat() const` -/
def GetFloat_const (v : Variant) : Res Nat :=
  if v.m_type = TYPE_FLOAT then Res.ok (load32 v.m_var) v else Res.assertFailed v

/-- Source: `void Set(uint32_t var)` -/
def Set_uint32 (v : Variant) (var : Nat) : Res Unit :=
  if v.m_type = TYPE_UNUSED ∨ v.m_type = TYPE_UINT32 then
    Res.ok () { v with m_type := TYPE_UINT32, m_var := store32 v.m_var (var % 4294967296) }
  else Res.assertFailed v

/-- Source: `uint32_t& GetUINT32()`; the type assertion of this overload is commented
out in the source, so nothing is checked after the optional zero-fill. -/
def GetUINT32 (v : Variant) : Res Nat :=
  match (if v.m_type = TYPE_UNUSED then Set_uint32 v 0 else Res.ok () v) with
  | Res.assertFailed s => Res.assertFailed s
  | Res.ok _ s => Res.ok (load32 s.m_var) s

/-- Source: `const uint32_t& GetUINT32() const` -/
def GetUINT32_const (v : Variant) : Res Nat :=
  if v.m_type = TYPE_UINT32 then Res.ok (load32 v.m_var) v else Res.assertFailed v

/-- Source: `void Set(int32_t var)` -/
def Set_int32 (v : Variant) (var : Int) : Res Unit :=
  if v.m_type = TYPE_UNUSED ∨ v.m_type = TYPE_INT32 then
    Res.ok () { v with m_type := TYPE_INT32, m_var := store32 v.m_var (toU32 var) }
  else Res.assertFailed v

/-- Source: `int32_t& GetINT32()` -/
def GetINT32 (v : Variant) : Res Int :=
  match (if v.m_type = TYPE_UNUSED then Set_int32 v 0 else Res.ok () v) with
  | Res.assertFailed s => Res.assertFailed s
  | Res.ok _ s =>
    if s.m_type = TYPE_INT32 then Res.ok (toI32 (load32 s.m_var)) s else Res.assertFailed s

/-- Source: `const int32_t& GetINT32() const` -/
def GetINT32_const (v : Variant) : Res Int :=
  if v.m_type = TYPE_INT32 then Res.ok (toI32 (load32 v.m_var)) v else Res.assertFailed v

/-- Source: `std::string& GetString() { return m_string; }` -/
def GetString (v : Variant) : Res (List Byte) := Res.ok v.m_string v

/-- Source: `const std::string& GetString() const { return m_string; }` -/
def GetString_const (v : Variant) : Res (List Byte) := Res.ok v.m_string v

/-- Source: `Variant& operator= (const Variant& rhs)`: the state of `this` afterwards. -/
def operatorAssign (self rhs : Variant) : Variant :=
  let s1 := { self with m_type := rhs.m_type }
  let s2 := { s1 with m_pVoid := rhs.m_pVoid }
  let s3 := { s2 with m_var := memcpy s2.m_var rhs.m_var C_VAR_SPACE_BYTES }
  { s3 with m_string := rhs.m_string }

/-- Source: `Variant(const Variant& v) { SetDefaults(); *this = v; }`; `raw` is the
object before the constructor body runs (members not yet assigned). -/
def copyConstruct (raw v : Variant) : Variant :=
  operatorAssign (SetDefaults raw) v

end Variant

/-- A payload of sixteen zero bytes. -/
def zeroPayload : Payload := ⟨List.replicate 16 0, by decide⟩

/-- A payload given by its first four bytes, the other twelve being zero. -/
def payload4 (a b c d : Byte) : Payload :=
  ⟨[a, b, c, d] ++ List.replicate 12 0, by rfl⟩

/-! ## VariantList -/

/-- The data member `Variant m_variant[C_MAX_VARIANT_LIST_PARMS]`. -/
structure VariantList where
  m_variant : List Variant
  size_eq : m_variant.length = C_MAX_VARIANT_LIST_PARMS
deriving DecidableEq

/-- Outcome of `VariantList::Get`: a reference to slot `index` (given with the
Variant it denotes), a failed assertion, or an evaluation of the subscript
`m_variant[parmNum]` outside the array (undefined behaviour in C++). -/
inductive SlotAccess where
  | slot (index : Nat) (v : Variant)
  | assertFailed
  | outOfBounds
deriving DecidableEq

/-- The built-in subscript `a[i]` of a C array with an `int` index: it denotes
an element only when `0 ≤ i` and `i` is below the array length. -/
def subscript (a : List Variant) (i : Int) : Option Variant :=
  if 0 ≤ i then a[i.toNat]? else none

namespace VariantList

/-- Source: `Variant& Get(int parmNum) { assert(parmNum < C_MAX_VARIANT_LIST_PARMS); return m_variant[parmNum]; }` -/
def Get (l : VariantList) (parmNum : Int) : SlotAccess :=
  if parmNum < (C_MAX_VARIANT_LIST_PARMS : Int) then
    match subscript l.m_variant parmNum with
    | some v => SlotAccess.slot parmNum.toNat v
    | none => SlotAccess.outOfBounds
  else SlotAccess.assertFailed

end VariantList

/-! ## Wire codec

The bodies of `SerializeToMem` and `SerializeFromMem` are not part of the
source (the header only declares them); they are modelled from the layout the
specification gives. -/

/-- The numeric value of an enumerator of `Variant::eType`. -/
def eType.tag : eType → Nat
  | TYPE_UNUSED => 0
  | TYPE_FLOAT => 1
  | TYPE_STRING => 2
  | TYPE_VECTOR2 => 3
  | TYPE_VECTOR3 => 4
  | TYPE_UINT32 => 5
  | TYPE_ENTITY => 6
  | TYPE_COMPONENT => 7
  | TYPE_RECT => 8
  | TYPE_INT32 => 9

/-- The enumerator of `Variant::eType` with a given numeric value, if any. -/
def eType.ofTag : Nat → Option eType
  | 0 => some TYPE_UNUSED
  | 1 => some TYPE_FLOAT
  | 2 => some TYPE_STRING
  | 3 => some TYPE_VECTOR2
  | 4 => some TYPE_VECTOR3
  | 5 => some TYPE_UINT32
  | 6 => some TYPE_ENTITY
  | 7 => some TYPE_COMPONENT
  | 8 => some TYPE_RECT
  | 9 => some TYPE_INT32
  | _ => none

/-- Modelled from the spec: the per-kind payload width of the wire layout
(the codec bodies are missing from the source). Float, Int32 and UInt32 take 4
bytes, Vector2 8, Vector3 12, Rect 16; the other kinds have no fixed-width
payload. -/
def payloadSize : eType → Nat
  | TYPE_FLOAT => 4
  | TYPE_UINT32 => 4
  | TYPE_INT32 => 4
  | TYPE_VECTOR2 => 8
  | TYPE_VECTOR3 => 12
  | TYPE_RECT => 16
  | _ => 0

/-- The copy of a byte string to the start of the payload buffer, the bytes
behind it untouched (nothing is written past the sixteenth byte). -/
def storeBytes (p : Payload) (bs : List Byte) : Payload :=
  ⟨(bs ++ p.bytes.drop bs.length).take C_VAR_SPACE_BYTES, by
    have h1 := p.size_eq
    simp only [List.length_take, List.length_append, List.length_drop, h1]
    omega⟩

/-- The value a Variant holds, as bytes: the text for TYPE_STRING, otherwise
the payload bytes its type occupies (none for TYPE_UNUSED and the two
reference types). -/
def valueBytes (v : Variant) : List Byte :=
  match v.m_type with
  | TYPE_STRING => v.m_string
  | k => v.m_var.bytes.take (payloadSize k)

/-- Modelled from the spec: the record `SerializeToMem` (body missing from the
source) emits for one slot. One tag byte, then nothing for Unused, the payload
bytes for the fixed-width kinds, and for String a 4-byte little-endian length
followed by the raw text; EntityRef and ComponentRef are written as Unused. -/
def encodeValue (v : Variant) : List Byte :=
  match v.m_type with
  | TYPE_UNUSED => [toByte TYPE_UNUSED.tag]
  | TYPE_ENTITY => [toByte TYPE_UNUSED.tag]
  | TYPE_COMPONENT => [toByte TYPE_UNUSED.tag]
  | TYPE_STRING =>
    toByte TYPE_STRING.tag :: (le32 (v.m_string.length % 4294967296) ++ v.m_string)
  | k => toByte k.tag :: v.m_var.bytes.take (payloadSize k)

/-- Modelled from the spec: the records of consecutive slots, in index order
(part of `SerializeToMem`, body missing from the source). -/
def encodeSlots : List Variant → List Byte
  | [] => []
  | v :: vs => encodeValue v ++ encodeSlots vs

/-- Modelled from the spec: `uint8_t* SerializeToMem(uint32_t* pSizeOut, uint8_t* pDest)`
(body missing from the source). It walks the six slots in index order and
emits one record per slot; the result is the buffer together with the encoded
length reported through the `uint32_t` output parameter. -/
def VariantList.SerializeToMem (l : VariantList) : List Byte × Nat :=
  (encodeSlots l.m_variant, (encodeSlots l.m_variant).length % 4294967296)

/-- The two data errors of the decoder. -/
inductive CodecError where
  | Truncated
  | UnknownKind
deriving DecidableEq, Repr

/-- Modelled from the spec: the decoding of one slot record by
`SerializeFromMem` (body missing from the source) into the slot `dst`. It fails
with `Truncated` when the buffer ends before the tag, the payload or the
declared string length is satisfied, and with `UnknownKind` when the tag is
outside the closed kind set; a reference tag yields an Unused slot. The result
is the new slot and the rest of the buffer. -/
def decodeValue (dst : Variant) (buf : List Byte) :
    Except CodecError (Variant × List Byte) :=
  match buf with
  | [] => Except.error CodecError.Truncated
  | t :: rest =>
    match eType.ofTag t.val with
    | none => Except.error CodecError.UnknownKind
    | some TYPE_UNUSED => Except.ok ({ dst with m_type := TYPE_UNUSED }, rest)
    | some TYPE_ENTITY => Except.ok ({ dst with m_type := TYPE_UNUSED }, rest)
    | some TYPE_COMPONENT => Except.ok ({ dst with m_type := TYPE_UNUSED }, rest)
    | some TYPE_STRING =>
      if rest.length < 4 then Except.error CodecError.Truncated
      else if (rest.drop 4).length < fromLE (rest.take 4) then
        Except.error CodecError.Truncated
      else
        Except.ok ({ dst with m_type := TYPE_STRING,
                              m_string := (rest.drop 4).take (fromLE (rest.take 4)) },
                   (rest.drop 4).drop (fromLE (rest.take 4)))
    | some k =>
      if rest.length < payloadSize k then Except.error CodecError.Truncated
      else
        Except.ok ({ dst with m_type := k,
                              m_var := storeBytes dst.m_var (rest.take (payloadSize k)) },
                   rest.drop (payloadSize k))

/-- Modelled from the spec: the decoding of consecutive slot records into the
slots `ds`, first to last (part of `SerializeFromMem`, body missing from the
source); the first error stops the walk. -/
def decodeSlots : (ds : List Variant) → List Byte →
    Except CodecError ({ out : List Variant // out.length = ds.length } × List Byte)
  | [], buf => Except.ok (⟨[], rfl⟩, buf)
  | d :: ds, buf =>
    match decodeValue d buf with
    | Except.error e => Except.error e
    | Except.ok (d1, rest) =>
      match decodeSlots ds rest with
      | Except.error e => Except.error e
      | Except.ok (out, rest1) =>
        Except.ok (⟨d1 :: out.val, by simp [out.property]⟩, rest1)

/-- Modelled from the spec: `bool SerializeFromMem(uint8_t* pSrc, int length, int* pBytesReadOut)`
(body missing from the source) run on the list `dst`. The buffer is the byte
string at `pSrc` and ends where that string ends; the `int length` argument is
not consulted, as the note on the declaration in the source says ("length
seems to be unused"). A `false` return is an error value; a `true` return
gives the repopulated list and the number of bytes consumed. -/
def VariantList.SerializeFromMem (dst : VariantList) (pSrc : List Byte) (length : Int) :
    Except CodecError (VariantList × Nat) :=
  match decodeSlots dst.m_variant pSrc with
  | Except.error e => Except.error e
  | Except.ok (out, rest) =>
    Except.ok (⟨out.val, out.property.trans dst.size_eq⟩, pSrc.length - rest.length)

/-- An unused Variant with a zero payload and an empty text. -/
def unusedVariant : Variant := ⟨TYPE_UNUSED, 0, zeroPayload, []⟩

/-- A VariantList of six unused slots. -/
def emptyList : VariantList := ⟨List.replicate 6 unusedVariant, by rfl⟩

/-- The list of the serialization example in the source: slot 0 holds the
uint32 42, slot 1 the string "Hey guys", slots 2 to 5 are unused. -/
def exampleList : VariantList :=
  ⟨[⟨TYPE_UINT32, 0, payload4 42 0 0 0, []⟩,
    ⟨TYPE_STRING, 0, zeroPayload, [72, 101, 121, 32, 103, 117, 121, 115]⟩,
    unusedVariant, unusedVariant, unusedVariant, unusedVariant], by rfl⟩

/-- A VariantList whose slot 0 holds the string `text` and whose slots 1 to 5
are unused. -/
def stringList (text : List Byte) : VariantList :=
  ⟨[⟨TYPE_STRING, 0, zeroPayload, text⟩,
    unusedVariant, unusedVariant, unusedVariant, unusedVariant, unusedVariant], by rfl⟩

/-! ## Constructors, slot updates and call sequences -/

namespace Variant

/-- Source: `Variant() { SetDefaults(); }`; `raw` is the object before the
constructor runs, whose `std::string` member starts out empty. -/
def Variant_default (raw : Variant) : Variant :=
  SetDefaults { raw with m_string := [] }

/-- Source: `Variant(float var) { SetDefaults(); Set(var); }` -/
def Variant_float (raw : Variant) (var : Nat) : Res Unit :=
  Set_float (SetDefaults { raw with m_string := [] }) var

/-- Source: `Variant(uint32_t var) { SetDefaults(); Set(var); }` -/
def Variant_uint32 (raw : Variant) (var : Nat) : Res Unit :=
  Set_uint32 (SetDefaults { raw with m_string := [] }) var

/-- Source: `Variant(int32_t var) { SetDefaults(); Set(var); }` -/
def Variant_int32 (raw : Variant) (var : Int) : Res Unit :=
  Set_int32 (SetDefaults { raw with m_string := [] }) var

end Variant

/-- One call of the type-checked numeric interface of a Variant: the three
setters with their argument and the three mutable getters. -/
inductive Call where
  | setFloat (var : Nat)
  | setUINT32 (var : Nat)
  | setINT32 (var : Int)
  | getFloat
  | getUINT32
  | getINT32
deriving DecidableEq

/-- The Variant a successful method call leaves behind; `none` when the call
stopped on an assertion. -/
def Res.success {α : Type} : Res α → Option Variant
  | Res.ok _ s => some s
  | Res.assertFailed _ => none

/-- The Variant at the end of a method call, be it a return or the point of a
failed assertion. -/
def Res.state {α : Type} : Res α → Variant
  | Res.ok _ s => s
  | Res.assertFailed s => s

/-- The effect of one call on a Variant, when the call succeeds. -/
def Call.run (v : Variant) : Call → Option Variant
  | Call.setFloat x => (Variant.Set_float v x).success
  | Call.setUINT32 x => (Variant.Set_uint32 v x).success
  | Call.setINT32 x => (Variant.Set_int32 v x).success
  | Call.getFloat => (Variant.GetFloat v).success
  | Call.getUINT32 => (Variant.GetUINT32 v).success
  | Call.getINT32 => (Variant.GetINT32 v).success

/-- A sequence of calls on one Variant, left to right; the result is the final
Variant when every call of the sequence succeeds. -/
def runCalls : Variant → List Call → Option Variant
  | v, [] => some v
  | v, c :: cs =>
    match c.run v with
    | none => none
    | some v1 => runCalls v1 cs

namespace VariantList

/-- The array element `m_variant[i]` for an index inside the array. -/
def slotAt (l : VariantList) (i : Fin 6) : Variant :=
  l.m_variant.get ⟨i.val, by rw [l.size_eq]; exact i.isLt⟩

/-- The list with the array element `m_variant[i]` replaced. -/
def update (l : VariantList) (i : Nat) (v : Variant) : VariantList :=
  ⟨l.m_variant.set i v, by rw [List.length_set]; exact l.size_eq⟩

/-- The statement `m_variant[i] = v;` (copy-assignment into a slot). -/
def assignSlot (l : VariantList) (i : Fin 6) (v : Variant) : VariantList :=
  l.update i.val (Variant.operatorAssign (l.slotAt i) v)

/-- Source: `VariantList() {};` every element of `m_variant` is
default-constructed; `raw` is the storage before the constructor runs. -/
def VariantList0 (raw : VariantList) : VariantList :=
  ⟨raw.m_variant.map Variant.Variant_default, by rw [List.length_map]; exact raw.size_eq⟩

/-- Source: `VariantList(Variant v0) { m_variant[0] = v0; }`; in this and the
following constructors a by-value parameter is the copy of the argument, which
has the fields of the argument. -/
def VariantList1 (raw : VariantList) (v0 : Variant) : VariantList :=
  (VariantList0 raw).assignSlot 0 v0

/-- Source: `VariantList(Variant v0, Variant v1) { m_variant[0] = v0; m_variant[1] = v1; }` -/
def VariantList2 (raw : VariantList) (v0 v1 : Variant) : VariantList :=
  ((VariantList0 raw).assignSlot 0 v0).assignSlot 1 v1

/-- Source: the three-argument constructor, `m_variant[0] = v0; m_variant[1] = v1; m_variant[2] = v2;` -/
def VariantList3 (raw : VariantList) (v0 v1 v2 : Variant) : VariantList :=
  (((VariantList0 raw).assignSlot 0 v0).assignSlot 1 v1).assignSlot 2 v2

/-- Source: the four-argument constructor, assignments to `m_variant[0]` .. `m_variant[3]`. -/
def VariantList4 (raw : VariantList) (v0 v1 v2 v3 : Variant) : VariantList :=
  ((((VariantList0 raw).assignSlot 0 v0).assignSlot 1 v1).assignSlot 2 v2).assignSlot 3 v3

/-- Source: the five-argument constructor, assignments to `m_variant[0]` .. `m_variant[4]`. -/
def VariantList5 (raw : VariantList) (v0 v1 v2 v3 v4 : Variant) : VariantList :=
  (((((VariantList0 raw).assignSlot 0 v0).assignSlot 1 v1).assignSlot 2 v2).assignSlot 3
    v3).assignSlot 4 v4

/-- Source: the six-argument constructor, assignments to `m_variant[0]` .. `m_variant[5]`. -/
def VariantList6 (raw : VariantList) (v0 v1 v2 v3 v4 v5 : Variant) : VariantList :=
  ((((((VariantList0 raw).assignSlot 0 v0).assignSlot 1 v1).assignSlot 2 v2).assignSlot 3
    v3).assignSlot 4 v4).assignSlot 5 v5

/-- Source: `void Reset() { for (int i = 0; i < C_MAX_VARIANT_LIST_PARMS; i++) { m_variant[i].Reset(); } }`;
the loop visits the indices 0, 1, .., 5 in this order. -/
def Reset (l : VariantList) : VariantList :=
  ([0, 1, 2, 3, 4, 5] : List (Fin 6)).foldl
    (fun acc i => acc.update i.val (Variant.Reset (acc.slotAt i))) l

end VariantList

/-- Outcome of a method call made through `Get(parmNum)`, as in
`list.Get(i).Set(x)`: the call returned, the call stopped on an assertion of
the Variant method, `Get` itself stopped on its assertion, or `Get` evaluated
the subscript outside the array. The first two carry the list as the call
left it. -/
inductive SlotRes (α : Type) where
  | ok (ret : α) (l : VariantList)
  | assertFailed (l : VariantList)
  | indexAssertFailed
  | outOfBounds
deriving DecidableEq

/-- The list a call through `Get` left behind, when `Get` delivered a slot. -/
def SlotRes.list {α : Type} : SlotRes α → Option VariantList
  | SlotRes.ok _ l => some l
  | SlotRes.assertFailed l => some l
  | SlotRes.indexAssertFailed => none
  | SlotRes.outOfBounds => none

/-- The expression `list.Get(parmNum).op(..)`: `Get` yields a reference to a
slot and the method `op` runs on that very array element, so afterwards the
element holds the Variant `op` left behind. -/
def VariantList.callOnSlot {α : Type} (l : VariantList) (parmNum : Int)
    (op : Variant → Res α) : SlotRes α :=
  match l.Get parmNum with
  | SlotAccess.slot idx v =>
    match op v with
    | Res.ok r v1 => SlotRes.ok r (l.update idx v1)
    | Res.assertFailed v1 => SlotRes.assertFailed (l.update idx v1)
  | SlotAccess.assertFailed => SlotRes.indexAssertFailed
  | SlotAccess.outOfBounds => SlotRes.outOfBounds

/-- The call `v.Reset()` as a method outcome; it has no assertion. -/
def Variant.Reset_call (v : Variant) : Res Unit := Res.ok () (Variant.Reset v)

/-- Every slot of the list from index `n` up to index 5 is reachable through
`Get` and has type TYPE_UNUSED. -/
def VariantList.unusedFrom (l : VariantList) (n : Nat) : Prop :=
  ∀ i : Nat, n ≤ i → i < 6 →
    ∃ u, l.Get (i : Int) = SlotAccess.slot i u ∧ u.m_type = TYPE_UNUSED

/-! ## Theorems -/

theorem fromLE_le32 (x : Nat) (hx : x < 4294967296) : fromLE (le32 x) = x := by
  simp only [le32, fromLE, toByte]
  omega

theorem load32_store32 (p : Payload) (x : Nat) (hx : x < 4294967296) :
    load32 (store32 p x) = x := by
  have h : (store32 p x).bytes.take 4 = le32 x := by
    simp [store32, le32]
  rw [load32, h]
  exact fromLE_le32 x hx

theorem toI32_toU32 (i : Int) (hlo : -2147483648 ≤ i) (hhi : i < 2147483648) :
    toI32 (toU32 i) = i := by
  unfold toI32 toU32
  split <;> omega

theorem toU32_lt (i : Int) : toU32 i < 4294967296 := by
  unfold toU32
  omega

namespace Variant

theorem Set_float_ok (v : Variant) (x : Nat)
    (hk : v.m_type = TYPE_UNUSED ∨ v.m_type = TYPE_FLOAT) :
    Set_float v x = Res.ok ()
      { v with m_type := TYPE_FLOAT, m_var := store32 v.m_var (x % 4294967296) } := by
  simp [Set_float, hk]

theorem Set_uint32_ok (v : Variant) (x : Nat)
    (hk : v.m_type = TYPE_UNUSED ∨ v.m_type = TYPE_UINT32) :
    Set_uint32 v x = Res.ok ()
      { v with m_type := TYPE_UINT32, m_var := store32 v.m_var (x % 4294967296) } := by
  simp [Set_uint32, hk]

theorem Set_int32_ok (v : Variant) (x : Int)
    (hk : v.m_type = TYPE_UNUSED ∨ v.m_type = TYPE_INT32) :
    Set_int32 v x = Res.ok ()
      { v with m_type := TYPE_INT32, m_var := store32 v.m_var (toU32 x) } := by
  simp [Set_int32, hk]

theorem GetFloat_of_float (v : Variant) (hk : v.m_type = TYPE_FLOAT) :
    GetFloat v = Res.ok (load32 v.m_var) v := by
  simp [GetFloat, hk]

theorem GetUINT32_of_used (v : Variant) (hk : v.m_type ≠ TYPE_UNUSED) :
    GetUINT32 v = Res.ok (load32 v.m_var) v := by
  simp [GetUINT32, hk]

theorem GetINT32_of_int32 (v : Variant) (hk : v.m_type = TYPE_INT32) :
    GetINT32 v = Res.ok (toI32 (load32 v.m_var)) v := by
  simp [GetINT32, hk]

end Variant

/-! ### Set followed by Get -/

/-- C1: for each of float, uint32 and int32, on a Variant whose type is
TYPE_UNUSED or already the type of the setter, Set(x) succeeds, the type
afterwards is the type of the setter, the mutable and the const getter both
succeed, return exactly x and leave the Variant as it is; a second Set(y) of
the same type succeeds as well and the getters then return y. -/
theorem set_then_get_returns_value (v : Variant) :
    (∀ x y : Nat, x < 4294967296 → y < 4294967296 →
      (v.m_type = TYPE_UNUSED ∨ v.m_type = TYPE_FLOAT) →
      ∃ s t, Variant.Set_float v x = Res.ok () s ∧ s.m_type = TYPE_FLOAT ∧
        Variant.GetFloat s = Res.ok x s ∧ Variant.GetFloat_const s = Res.ok x s ∧
        Variant.Set_float s y = Res.ok () t ∧ t.m_type = TYPE_FLOAT ∧
        Variant.GetFloat t = Res.ok y t ∧ Variant.GetFloat_const t = Res.ok y t) ∧
    (∀ x y : Nat, x < 4294967296 → y < 4294967296 →
      (v.m_type = TYPE_UNUSED ∨ v.m_type = TYPE_UINT32) →
      ∃ s t, Variant.Set_uint32 v x = Res.ok () s ∧ s.m_type = TYPE_UINT32 ∧
        Variant.GetUINT32 s = Res.ok x s ∧ Variant.GetUINT32_const s = Res.ok x s ∧
        Variant.Set_uint32 s y = Res.ok () t ∧ t.m_type = TYPE_UINT32 ∧
        Variant.GetUINT32 t = Res.ok y t ∧ Variant.GetUINT32_const t = Res.ok y t) ∧
    (∀ x y : Int, -2147483648 ≤ x → x < 2147483648 → -2147483648 ≤ y → y < 2147483648 →
      (v.m_type = TYPE_UNUSED ∨ v.m_type = TYPE_INT32) →
      ∃ s t, Variant.Set_int32 v x = Res.ok () s ∧ s.m_type = TYPE_INT32 ∧
        Variant.GetINT32 s = Res.ok x s ∧ Variant.GetINT32_const s = Res.ok x s ∧
        Variant.Set_int32 s y = Res.ok () t ∧ t.m_type = TYPE_INT32 ∧
        Variant.GetINT32 t = Res.ok y t ∧ Variant.GetINT32_const t = Res.ok y t) := by
  refine ⟨?_, ?_, ?_⟩
  · intro x y hx hy hk
    refine ⟨_, _, Variant.Set_float_ok v x hk, rfl, ?_, ?_,
      Variant.Set_float_ok _ y (Or.inr rfl), rfl, ?_, ?_⟩ <;>
    simp [Variant.GetFloat, Variant.GetFloat_const, load32_store32 _ _ hx,
      load32_store32 _ _ hy, Nat.mod_eq_of_lt hx, Nat.mod_eq_of_lt hy]
  · intro x y hx hy hk
    refine ⟨_, _, Variant.Set_uint32_ok v x hk, rfl, ?_, ?_,
      Variant.Set_uint32_ok _ y (Or.inr rfl), rfl, ?_, ?_⟩ <;>
    simp [Variant.GetUINT32, Variant.GetUINT32_const, load32_store32 _ _ hx,
      load32_store32 _ _ hy, Nat.mod_eq_of_lt hx, Nat.mod_eq_of_lt hy]
  · intro x y hx1 hx2 hy1 hy2 hk
    refine ⟨_, _, Variant.Set_int32_ok v x hk, rfl, ?_, ?_,
      Variant.Set_int32_ok _ y (Or.inr rfl), rfl, ?_, ?_⟩ <;>
    simp [Variant.GetINT32, Variant.GetINT32_const, load32_store32 _ _ (toU32_lt x),
      load32_store32 _ _ (toU32_lt y), toI32_toU32 x hx1 hx2, toI32_toU32 y hy1 hy2]

/-- Witness for C1: an unused Variant with leftover payload bytes; the float
patterns 1065353216 (1.0f) and 0, the uint32 values 42 and 7, and the int32
values -5 and 2147483647. -/
theorem set_then_get_returns_value_witness :
    (∃ s t, Variant.Set_float ⟨TYPE_UNUSED, 0, payload4 9 9 9 9, []⟩ 1065353216
        = Res.ok () s ∧ s.m_type = TYPE_FLOAT ∧
      Variant.GetFloat s = Res.ok 1065353216 s ∧
      Variant.GetFloat_const s = Res.ok 1065353216 s ∧
      Variant.Set_float s 0 = Res.ok () t ∧ t.m_type = TYPE_FLOAT ∧
      Variant.GetFloat t = Res.ok 0 t ∧ Variant.GetFloat_const t = Res.ok 0 t) ∧
    (∃ s t, Variant.Set_uint32 ⟨TYPE_UNUSED, 0, payload4 9 9 9 9, []⟩ 42 = Res.ok () s ∧
      s.m_type = TYPE_UINT32 ∧
      Variant.GetUINT32 s = Res.ok 42 s ∧ Variant.GetUINT32_const s = Res.ok 42 s ∧
      Variant.Set_uint32 s 7 = Res.ok () t ∧ t.m_type = TYPE_UINT32 ∧
      Variant.GetUINT32 t = Res.ok 7 t ∧ Variant.GetUINT32_const t = Res.ok 7 t) ∧
    (∃ s t, Variant.Set_int32 ⟨TYPE_UNUSED, 0, payload4 9 9 9 9, []⟩ (-5) = Res.ok () s ∧
      s.m_type = TYPE_INT32 ∧
      Variant.GetINT32 s = Res.ok (-5) s ∧ Variant.GetINT32_const s = Res.ok (-5) s ∧
      Variant.Set_int32 s 2147483647 = Res.ok () t ∧ t.m_type = TYPE_INT32 ∧
      Variant.GetINT32 t = Res.ok 2147483647 t ∧
      Variant.GetINT32_const t = Res.ok 2147483647 t) :=
  have h := set_then_get_returns_value ⟨TYPE_UNUSED, 0, payload4 9 9 9 9, []⟩
  ⟨h.1 1065353216 0 (by decide) (by decide) (Or.inl rfl),
    h.2.1 42 7 (by decide) (by decide) (Or.inl rfl),
    h.2.2 (-5) 2147483647 (by decide) (by decide) (by decide) (by decide) (Or.inl rfl)⟩

/-! ### Failure of Set -/

/-- C2: for each of float, uint32 and int32 and every Variant, Set fails on its
assertion exactly when the current type is neither TYPE_UNUSED nor the type of
the setter, and the Variant at the failing assertion is the Variant the call
started from (nothing has been written). -/
theorem set_fails_iff_kind_mismatch (v : Variant) (f u : Nat) (i : Int) :
    ((Variant.Set_float v f = Res.assertFailed v ↔
        (v.m_type ≠ TYPE_UNUSED ∧ v.m_type ≠ TYPE_FLOAT)) ∧
      ((∃ s, Variant.Set_float v f = Res.ok () s) ↔
        (v.m_type = TYPE_UNUSED ∨ v.m_type = TYPE_FLOAT))) ∧
    ((Variant.Set_uint32 v u = Res.assertFailed v ↔
        (v.m_type ≠ TYPE_UNUSED ∧ v.m_type ≠ TYPE_UINT32)) ∧
      ((∃ s, Variant.Set_uint32 v u = Res.ok () s) ↔
        (v.m_type = TYPE_UNUSED ∨ v.m_type = TYPE_UINT32))) ∧
    ((Variant.Set_int32 v i = Res.assertFailed v ↔
        (v.m_type ≠ TYPE_UNUSED ∧ v.m_type ≠ TYPE_INT32)) ∧
      ((∃ s, Variant.Set_int32 v i = Res.ok () s) ↔
        (v.m_type = TYPE_UNUSED ∨ v.m_type = TYPE_INT32))) := by
  refine ⟨⟨?_, ?_⟩, ⟨?_, ?_⟩, ⟨?_, ?_⟩⟩
  · by_cases h : v.m_type = TYPE_UNUSED ∨ v.m_type = TYPE_FLOAT
    · simp [Variant.Set_float, h]; tauto
    · simp [Variant.Set_float, h]; tauto
  · by_cases h : v.m_type = TYPE_UNUSED ∨ v.m_type = TYPE_FLOAT
    · simp [Variant.Set_float, h]
    · simp [Variant.Set_float, h]
  · by_cases h : v.m_type = TYPE_UNUSED ∨ v.m_type = TYPE_UINT32
    · simp [Variant.Set_uint32, h]; tauto
    · simp [Variant.Set_uint32, h]; tauto
  · by_cases h : v.m_type = TYPE_UNUSED ∨ v.m_type = TYPE_UINT32
    · simp [Variant.Set_uint32, h]
    · simp [Variant.Set_uint32, h]
  · by_cases h : v.m_type = TYPE_UNUSED ∨ v.m_type = TYPE_INT32
    · simp [Variant.Set_int32, h]; tauto
    · simp [Variant.Set_int32, h]; tauto
  · by_cases h : v.m_type = TYPE_UNUSED ∨ v.m_type = TYPE_INT32
    · simp [Variant.Set_int32, h]
    · simp [Variant.Set_int32, h]

/-! ### The mutable getters -/

/-- C3, counterexample: a Variant of type TYPE_INT32 holding 42 is neither
unused nor a uint32, yet the mutable GetUINT32 does not fail on it: it returns
42 and leaves the Variant as it is. -/
theorem mutable_GetUINT32_accepts_other_kind :
    (⟨TYPE_INT32, 0, payload4 42 0 0 0, []⟩ : Variant).m_type ≠ TYPE_UNUSED ∧
    (⟨TYPE_INT32, 0, payload4 42 0 0 0, []⟩ : Variant).m_type ≠ TYPE_UINT32 ∧
    Variant.GetUINT32 ⟨TYPE_INT32, 0, payload4 42 0 0 0, []⟩
      = Res.ok 42 ⟨TYPE_INT32, 0, payload4 42 0 0 0, []⟩ := by
  decide

/-- C3, amended: on a Variant whose type is neither TYPE_UNUSED nor the type of
the getter, the mutable GetFloat and GetINT32 fail on their assertion with the
Variant untouched; the mutable GetUINT32 has no type check, so on every Variant
whose type is not TYPE_UNUSED it succeeds, leaves the Variant untouched and
returns the first four payload bytes read as a uint32. -/
theorem mutable_get_on_other_kind (v : Variant) (hu : v.m_type ≠ TYPE_UNUSED) :
    (v.m_type ≠ TYPE_FLOAT → Variant.GetFloat v = Res.assertFailed v) ∧
    (v.m_type ≠ TYPE_INT32 → Variant.GetINT32 v = Res.assertFailed v) ∧
    Variant.GetUINT32 v = Res.ok (load32 v.m_var) v := by
  refine ⟨?_, ?_, Variant.GetUINT32_of_used v hu⟩
  · intro h
    simp [Variant.GetFloat, hu, h]
  · intro h
    simp [Variant.GetINT32, hu, h]

/-- Witness for C3 (amended): a Variant of type TYPE_STRING. -/
theorem mutable_get_on_other_kind_witness :
    Variant.GetFloat ⟨TYPE_STRING, 0, payload4 1 2 3 4, [72, 105]⟩
      = Res.assertFailed ⟨TYPE_STRING, 0, payload4 1 2 3 4, [72, 105]⟩ ∧
    Variant.GetINT32 ⟨TYPE_STRING, 0, payload4 1 2 3 4, [72, 105]⟩
      = Res.assertFailed ⟨TYPE_STRING, 0, payload4 1 2 3 4, [72, 105]⟩ ∧
    Variant.GetUINT32 ⟨TYPE_STRING, 0, payload4 1 2 3 4, [72, 105]⟩
      = Res.ok (load32 (payload4 1 2 3 4)) ⟨TYPE_STRING, 0, payload4 1 2 3 4, [72, 105]⟩ :=
  have h := mutable_get_on_other_kind ⟨TYPE_STRING, 0, payload4 1 2 3 4, [72, 105]⟩
    (by decide)
  ⟨h.1 (by decide), h.2.1 (by decide), h.2.2⟩

/-- C4: on a Variant of type TYPE_UNUSED, whatever its payload bytes are, each
of the mutable getters GetFloat, GetUINT32 and GetINT32 succeeds, returns zero,
and leaves the Variant with the type of the getter and a zero stored in the
first four payload bytes. -/
theorem mutable_get_on_unused_returns_zero (v : Variant) (hu : v.m_type = TYPE_UNUSED) :
    (∃ s, Variant.GetFloat v = Res.ok 0 s ∧ s.m_type = TYPE_FLOAT ∧ load32 s.m_var = 0) ∧
    (∃ s, Variant.GetUINT32 v = Res.ok 0 s ∧ s.m_type = TYPE_UINT32 ∧ load32 s.m_var = 0) ∧
    (∃ s, Variant.GetINT32 v = Res.ok 0 s ∧ s.m_type = TYPE_INT32 ∧ load32 s.m_var = 0) := by
  have h0 : load32 (store32 v.m_var 0) = 0 := load32_store32 _ 0 (by decide)
  refine ⟨⟨{ v with m_type := TYPE_FLOAT, m_var := store32 v.m_var 0 }, ?_, rfl, h0⟩,
    ⟨{ v with m_type := TYPE_UINT32, m_var := store32 v.m_var 0 }, ?_, rfl, h0⟩,
    ⟨{ v with m_type := TYPE_INT32, m_var := store32 v.m_var 0 }, ?_, rfl, h0⟩⟩
  · simp [Variant.GetFloat, Variant.Set_float, hu, h0]
  · simp [Variant.GetUINT32, Variant.Set_uint32, hu, h0]
  · have h1 : toU32 0 = 0 := by decide
    have h2 : toI32 0 = 0 := by decide
    simp [Variant.GetINT32, Variant.Set_int32, hu, h0, h1, h2]

/-- Witness for C4: the Variant left behind by Set(uint32 42) followed by
Reset, whose payload still holds 42. -/
theorem mutable_get_on_unused_returns_zero_witness :
    (∃ s, Variant.GetFloat ⟨TYPE_UNUSED, 0, payload4 42 0 0 0, []⟩ = Res.ok 0 s ∧
      s.m_type = TYPE_FLOAT ∧ load32 s.m_var = 0) ∧
    (∃ s, Variant.GetUINT32 ⟨TYPE_UNUSED, 0, payload4 42 0 0 0, []⟩ = Res.ok 0 s ∧
      s.m_type = TYPE_UINT32 ∧ load32 s.m_var = 0) ∧
    (∃ s, Variant.GetINT32 ⟨TYPE_UNUSED, 0, payload4 42 0 0 0, []⟩ = Res.ok 0 s ∧
      s.m_type = TYPE_INT32 ∧ load32 s.m_var = 0) :=
  mutable_get_on_unused_returns_zero ⟨TYPE_UNUSED, 0, payload4 42 0 0 0, []⟩ rfl

/-! ### The const getters -/

/-- C5: for each of float, uint32 and int32 and every Variant, the const getter
succeeds exactly when the type is the type of the getter; it then returns the
stored payload word, and on every other type (TYPE_UNUSED included) it fails on
its assertion; in both cases the Variant is left as it is. -/
theorem const_get_succeeds_iff_kind (v : Variant) :
    (((∃ r s, Variant.GetFloat_const v = Res.ok r s) ↔ v.m_type = TYPE_FLOAT) ∧
      (v.m_type = TYPE_FLOAT → Variant.GetFloat_const v = Res.ok (load32 v.m_var) v) ∧
      (v.m_type ≠ TYPE_FLOAT → Variant.GetFloat_const v = Res.assertFailed v)) ∧
    (((∃ r s, Variant.GetUINT32_const v = Res.ok r s) ↔ v.m_type = TYPE_UINT32) ∧
      (v.m_type = TYPE_UINT32 → Variant.GetUINT32_const v = Res.ok (load32 v.m_var) v) ∧
      (v.m_type ≠ TYPE_UINT32 → Variant.GetUINT32_const v = Res.assertFailed v)) ∧
    (((∃ r s, Variant.GetINT32_const v = Res.ok r s) ↔ v.m_type = TYPE_INT32) ∧
      (v.m_type = TYPE_INT32 →
        Variant.GetINT32_const v = Res.ok (toI32 (load32 v.m_var)) v) ∧
      (v.m_type ≠ TYPE_INT32 → Variant.GetINT32_const v = Res.assertFailed v)) := by
  refine ⟨⟨?_, ?_, ?_⟩, ⟨?_, ?_, ?_⟩, ⟨?_, ?_, ?_⟩⟩
  · by_cases h : v.m_type = TYPE_FLOAT <;> simp [Variant.GetFloat_const, h]
  · intro h; simp [Variant.GetFloat_const, h]
  · intro h; simp [Variant.GetFloat_const, h]
  · by_cases h : v.m_type = TYPE_UINT32 <;> simp [Variant.GetUINT32_const, h]
  · intro h; simp [Variant.GetUINT32_const, h]
  · intro h; simp [Variant.GetUINT32_const, h]
  · by_cases h : v.m_type = TYPE_INT32 <;> simp [Variant.GetINT32_const, h]
  · intro h; simp [Variant.GetINT32_const, h]
  · intro h; simp [Variant.GetINT32_const, h]

/-- Witness for C5: a Variant of type TYPE_UINT32 holding 42; the const
GetUINT32 returns 42, the const GetFloat and GetINT32 fail. -/
theorem const_get_succeeds_iff_kind_witness :
    Variant.GetFloat_const ⟨TYPE_UINT32, 0, payload4 42 0 0 0, []⟩
      = Res.assertFailed ⟨TYPE_UINT32, 0, payload4 42 0 0 0, []⟩ ∧
    Variant.GetUINT32_const ⟨TYPE_UINT32, 0, payload4 42 0 0 0, []⟩
      = Res.ok (load32 (payload4 42 0 0 0)) ⟨TYPE_UINT32, 0, payload4 42 0 0 0, []⟩ ∧
    Variant.GetINT32_const ⟨TYPE_UINT32, 0, payload4 42 0 0 0, []⟩
      = Res.assertFailed ⟨TYPE_UINT32, 0, payload4 42 0 0 0, []⟩ :=
  have h := const_get_succeeds_iff_kind ⟨TYPE_UINT32, 0, payload4 42 0 0 0, []⟩
  ⟨h.1.2.2 (by decide), h.2.1.2.1 rfl, h.2.2.2.2 (by decide)⟩

/-- C6, counterexample: on a Variant of type TYPE_UNUSED whose text buffer
holds two bytes, the const GetString does not fail; it returns the buffer. -/
theorem const_GetString_on_unused_succeeds :
    (⟨TYPE_UNUSED, 0, zeroPayload, [72, 105]⟩ : Variant).m_type ≠ TYPE_STRING ∧
    Variant.GetString_const ⟨TYPE_UNUSED, 0, zeroPayload, [72, 105]⟩
      = Res.ok [72, 105] ⟨TYPE_UNUSED, 0, zeroPayload, [72, 105]⟩ := by
  decide

/-- C6, amended: the const GetString performs no type check; on every Variant,
whatever its type, it succeeds, returns the text buffer m_string and leaves
the Variant as it is. -/
theorem const_GetString_never_fails (v : Variant) :
    Variant.GetString_const v = Res.ok v.m_string v ∧
    ∀ s, Variant.GetString_const v ≠ Res.assertFailed s := by
  refine ⟨rfl, ?_⟩
  intro s h
  simp [Variant.GetString_const] at h

/-! ### Copying and Reset -/

theorem memcpy_full (d s : Payload) : memcpy d s C_VAR_SPACE_BYTES = s := by
  have hs := s.size_eq
  have hd := d.size_eq
  cases s with
  | mk sb sp =>
    cases d with
    | mk db dp =>
      simp only [memcpy, Payload.mk.injEq]
      simp only at hs hd
      rw [List.take_of_length_le (by omega), List.drop_of_length_le (by omega)]
      simp

/-- C8: for every destination d and source s, copy-assignment and
copy-construction are total and leave the destination with the m_type, the 16
payload bytes, m_pVoid and m_string of s; the destination equals s. -/
theorem copy_duplicates_all_fields (d s : Variant) :
    (Variant.operatorAssign d s).m_type = s.m_type ∧
    (Variant.operatorAssign d s).m_var = s.m_var ∧
    (Variant.operatorAssign d s).m_pVoid = s.m_pVoid ∧
    (Variant.operatorAssign d s).m_string = s.m_string ∧
    Variant.operatorAssign d s = s ∧
    (Variant.copyConstruct d s).m_type = s.m_type ∧
    (Variant.copyConstruct d s).m_var = s.m_var ∧
    (Variant.copyConstruct d s).m_pVoid = s.m_pVoid ∧
    (Variant.copyConstruct d s).m_string = s.m_string ∧
    Variant.copyConstruct d s = s := by
  have h1 : Variant.operatorAssign d s = s := by
    cases s
    simp [Variant.operatorAssign, memcpy_full]
  have h2 : Variant.copyConstruct d s = s := by
    cases s
    simp [Variant.copyConstruct, Variant.operatorAssign, Variant.SetDefaults, memcpy_full]
  rw [h1, h2]
  simp

/-- C9: for every Variant, Reset leaves the type TYPE_UNUSED, and afterwards
Set succeeds for float, uint32 and int32 alike, whatever the type was before
the reset, after which the getter of that type returns the value just set. -/
theorem reset_then_set_any_kind (v : Variant) (f u : Nat) (i : Int)
    (hf : f < 4294967296) (hu : u < 4294967296)
    (hi1 : -2147483648 ≤ i) (hi2 : i < 2147483648) :
    (Variant.Reset v).m_type = TYPE_UNUSED ∧
    (∃ s, Variant.Set_float (Variant.Reset v) f = Res.ok () s ∧
      Variant.GetFloat s = Res.ok f s ∧ Variant.GetFloat_const s = Res.ok f s) ∧
    (∃ s, Variant.Set_uint32 (Variant.Reset v) u = Res.ok () s ∧
      Variant.GetUINT32 s = Res.ok u s ∧ Variant.GetUINT32_const s = Res.ok u s) ∧
    (∃ s, Variant.Set_int32 (Variant.Reset v) i = Res.ok () s ∧
      Variant.GetINT32 s = Res.ok i s ∧ Variant.GetINT32_const s = Res.ok i s) := by
  refine ⟨rfl, ⟨_, Variant.Set_float_ok _ f (Or.inl rfl), ?_, ?_⟩,
    ⟨_, Variant.Set_uint32_ok _ u (Or.inl rfl), ?_, ?_⟩,
    ⟨_, Variant.Set_int32_ok _ i (Or.inl rfl), ?_, ?_⟩⟩ <;>
  simp [Variant.GetFloat, Variant.GetFloat_const, Variant.GetUINT32, Variant.GetUINT32_const,
    Variant.GetINT32, Variant.GetINT32_const, Variant.Reset, load32_store32 _ _ hf,
    load32_store32 _ _ hu, load32_store32 _ _ (toU32_lt i), toI32_toU32 i hi1 hi2,
    Nat.mod_eq_of_lt hf, Nat.mod_eq_of_lt hu]

/-- Witness for C9: a Variant of type TYPE_STRING is reset and then set to the
float pattern 1065353216 (1.0f), the uint32 42 and the int32 -5. -/
theorem reset_then_set_any_kind_witness :
    (Variant.Reset ⟨TYPE_STRING, 0, zeroPayload, [72, 105]⟩).m_type = TYPE_UNUSED ∧
    (∃ s, Variant.Set_float (Variant.Reset ⟨TYPE_STRING, 0, zeroPayload, [72, 105]⟩)
        1065353216 = Res.ok () s ∧
      Variant.GetFloat s = Res.ok 1065353216 s ∧
      Variant.GetFloat_const s = Res.ok 1065353216 s) ∧
    (∃ s, Variant.Set_uint32 (Variant.Reset ⟨TYPE_STRING, 0, zeroPayload, [72, 105]⟩)
        42 = Res.ok () s ∧
      Variant.GetUINT32 s = Res.ok 42 s ∧ Variant.GetUINT32_const s = Res.ok 42 s) ∧
    (∃ s, Variant.Set_int32 (Variant.Reset ⟨TYPE_STRING, 0, zeroPayload, [72, 105]⟩)
        (-5) = Res.ok () s ∧
      Variant.GetINT32 s = Res.ok (-5) s ∧ Variant.GetINT32_const s = Res.ok (-5) s) :=
  reset_then_set_any_kind ⟨TYPE_STRING, 0, zeroPayload, [72, 105]⟩ 1065353216 42 (-5)
    (by decide) (by decide) (by decide) (by decide)


/-! ### VariantList::Get -/

/-- C7, the code at the failing input: for every VariantList, Get(-1) passes
the assertion (-1 is below C_MAX_VARIANT_LIST_PARMS) and evaluates the
subscript m_variant[-1], which lies outside the array; no assertion fires. An
index above 5, in contrast, does stop at the assertion. -/
theorem Get_negative_index_reaches_array (l : VariantList) :
    l.Get (-1) = SlotAccess.outOfBounds ∧ l.Get (-1) ≠ SlotAccess.assertFailed ∧
    l.Get 6 = SlotAccess.assertFailed := by
  refine ⟨?_, ?_, ?_⟩ <;>
  simp [VariantList.Get, subscript, C_MAX_VARIANT_LIST_PARMS]

theorem Get_above_range_fails (l : VariantList) (parmNum : Int) (h : 5 < parmNum) :
    l.Get parmNum = SlotAccess.assertFailed := by
  have h1 : ¬ parmNum < 6 := by omega
  simp [VariantList.Get, C_MAX_VARIANT_LIST_PARMS, h1]

theorem Get_negative_passes_assert (l : VariantList) (parmNum : Int) (h : parmNum < 0) :
    l.Get parmNum = SlotAccess.outOfBounds := by
  have h1 : parmNum < 6 := by omega
  have h2 : ¬ 0 ≤ parmNum := by omega
  simp [VariantList.Get, subscript, C_MAX_VARIANT_LIST_PARMS, h1, h2]

theorem Get_in_range (l : VariantList) (i : Nat) (h : i < 6) :
    ∃ v, l.m_variant[i]? = some v ∧ l.Get (i : Int) = SlotAccess.slot i v := by
  have hl : i < l.m_variant.length := by
    rw [l.size_eq]; exact h
  refine ⟨l.m_variant[i], List.getElem?_eq_getElem hl, ?_⟩
  have h1 : (i : Int) < 6 := by omega
  simp [VariantList.Get, subscript, C_MAX_VARIANT_LIST_PARMS, h1, List.getElem?_eq_getElem hl]

/-! ### Wire codec round trip -/

theorem ofTag_tag (k : eType) : eType.ofTag (toByte k.tag).val = some k := by
  cases k <;> rfl

theorem take_payload_length (p : Payload) (n : Nat) (hn : n ≤ 16) :
    (p.bytes.take n).length = n := by
  have h := p.size_eq
  simp only [List.length_take, h, C_VAR_SPACE_BYTES]
  omega

theorem storeBytes_take (d p : Payload) (n : Nat) (hn : n ≤ 16) :
    (storeBytes d (p.bytes.take n)).bytes.take n = p.bytes.take n := by
  have hl := take_payload_length p n hn
  have hd := d.size_eq
  simp only [storeBytes, C_VAR_SPACE_BYTES]
  rw [List.take_take, Nat.min_eq_left hn]
  exact List.take_left' hl

theorem payloadSize_le (k : eType) : payloadSize k ≤ 16 := by
  cases k <;> decide

/-- Decoding the record of a serializable slot gives back its type and value
and consumes exactly that record. -/
theorem decodeValue_encodeValue (d v : Variant) (rest : List Byte)
    (h1 : v.m_type ≠ TYPE_ENTITY) (h2 : v.m_type ≠ TYPE_COMPONENT)
    (hs : v.m_type = TYPE_STRING → v.m_string.length < 4294967296) :
    ∃ d1, decodeValue d (encodeValue v ++ rest) = Except.ok (d1, rest) ∧
      d1.m_type = v.m_type ∧ valueBytes d1 = valueBytes v := by
  obtain ⟨k, pv, var, str⟩ := v
  have fixed : ∀ k1 : eType, k1 ≠ TYPE_UNUSED → k1 ≠ TYPE_ENTITY → k1 ≠ TYPE_COMPONENT →
      k1 ≠ TYPE_STRING →
      decodeValue d ((toByte k1.tag :: var.bytes.take (payloadSize k1)) ++ rest)
        = Except.ok ((⟨k1, d.m_pVoid, storeBytes d.m_var (var.bytes.take (payloadSize k1)),
            d.m_string⟩ : Variant), rest) := by
    intro k1 a b c e
    have hl := take_payload_length var (payloadSize k1) (payloadSize_le k1)
    have ht : (var.bytes.take (payloadSize k1) ++ rest).take (payloadSize k1)
        = var.bytes.take (payloadSize k1) := List.take_left' hl
    have hd : (var.bytes.take (payloadSize k1) ++ rest).drop (payloadSize k1) = rest :=
      List.drop_left' hl
    have hlen : ¬ (var.bytes.take (payloadSize k1) ++ rest).length < payloadSize k1 := by
      rw [List.length_append, hl]; omega
    cases k1 <;> first
      | exact absurd rfl a
      | exact absurd rfl b
      | exact absurd rfl c
      | exact absurd rfl e
      | (simp only [decodeValue, List.cons_append, ofTag_tag]
         rw [if_neg hlen, ht, hd])
  cases k with
  | TYPE_UNUSED => exact ⟨_, rfl, rfl, rfl⟩
  | TYPE_ENTITY => exact absurd rfl h1
  | TYPE_COMPONENT => exact absurd rfl h2
  | TYPE_STRING =>
    have hlen : str.length < 4294967296 := hs rfl
    have h4 : (le32 (str.length % 4294967296)).length = 4 := rfl
    have ht : (le32 (str.length % 4294967296) ++ str ++ rest).take 4
        = le32 (str.length % 4294967296) := by
      rw [List.append_assoc]; exact List.take_left' h4
    have hd : (le32 (str.length % 4294967296) ++ str ++ rest).drop 4 = str ++ rest := by
      rw [List.append_assoc]; exact List.drop_left' h4
    have hn : fromLE (le32 (str.length % 4294967296)) = str.length := by
      rw [Nat.mod_eq_of_lt hlen]; exact fromLE_le32 _ hlen
    refine ⟨⟨TYPE_STRING, d.m_pVoid, d.m_var, str⟩, ?_, rfl, rfl⟩
    simp only [encodeValue, decodeValue, List.cons_append, ofTag_tag]
    rw [ht, hd, hn]
    have c1 : ¬ (le32 (str.length % 4294967296) ++ str ++ rest).length < 4 := by
      simp only [List.length_append, h4]; omega
    have c2 : ¬ (str ++ rest).length < str.length := by
      simp only [List.length_append]; omega
    rw [if_neg c1, if_neg c2, List.take_left' rfl, List.drop_left' rfl]
  | TYPE_FLOAT =>
    exact ⟨_, fixed TYPE_FLOAT (by decide) (by decide) (by decide) (by decide), rfl,
      storeBytes_take _ _ _ (by decide)⟩
  | TYPE_VECTOR2 =>
    exact ⟨_, fixed TYPE_VECTOR2 (by decide) (by decide) (by decide) (by decide), rfl,
      storeBytes_take _ _ _ (by decide)⟩
  | TYPE_VECTOR3 =>
    exact ⟨_, fixed TYPE_VECTOR3 (by decide) (by decide) (by decide) (by decide), rfl,
      storeBytes_take _ _ _ (by decide)⟩
  | TYPE_UINT32 =>
    exact ⟨_, fixed TYPE_UINT32 (by decide) (by decide) (by decide) (by decide), rfl,
      storeBytes_take _ _ _ (by decide)⟩
  | TYPE_RECT =>
    exact ⟨_, fixed TYPE_RECT (by decide) (by decide) (by decide) (by decide), rfl,
      storeBytes_take _ _ _ (by decide)⟩
  | TYPE_INT32 =>
    exact ⟨_, fixed TYPE_INT32 (by decide) (by decide) (by decide) (by decide), rfl,
      storeBytes_take _ _ _ (by decide)⟩

theorem decodeSlots_encodeSlots : ∀ (vs ds : List Variant) (rest : List Byte),
    ds.length = vs.length →
    (∀ v ∈ vs, v.m_type ≠ TYPE_ENTITY ∧ v.m_type ≠ TYPE_COMPONENT ∧
      (v.m_type = TYPE_STRING → v.m_string.length < 4294967296)) →
    ∃ out, decodeSlots ds (encodeSlots vs ++ rest) = Except.ok (out, rest) ∧
      List.Forall₂ (fun a b => a.m_type = b.m_type ∧ valueBytes a = valueBytes b)
        out.val vs := by
  intro vs
  induction vs with
  | nil =>
    intro ds rest hl _
    cases ds with
    | nil => exact ⟨⟨[], rfl⟩, rfl, List.Forall₂.nil⟩
    | cons d ds => simp at hl
  | cons v vs ih =>
    intro ds rest hl hv
    cases ds with
    | nil => simp at hl
    | cons d ds =>
      have hl1 : ds.length = vs.length := by simpa using hl
      obtain ⟨a, b, c⟩ := hv v (List.mem_cons_self v vs)
      obtain ⟨d1, hd1, hk, hval⟩ :=
        decodeValue_encodeValue d v (encodeSlots vs ++ rest) a b c
      obtain ⟨out, hout, hrel⟩ :=
        ih ds rest hl1 (fun w hw => hv w (List.mem_cons_of_mem v hw))
      refine ⟨⟨d1 :: out.val, by simp [out.property]⟩, ?_, List.Forall₂.cons ⟨hk, hval⟩ hrel⟩
      simp only [encodeSlots, decodeSlots, List.append_assoc, hd1, hout]

theorem Get_in_range_get (l : VariantList) (i : Nat) (hl : i < l.m_variant.length) :
    l.Get (i : Int) = SlotAccess.slot i (l.m_variant.get ⟨i, hl⟩) := by
  have h6 : i < 6 := by
    have := l.size_eq
    simp only [C_MAX_VARIANT_LIST_PARMS] at this
    omega
  have h1 : (i : Int) < 6 := by omega
  simp [VariantList.Get, subscript, C_MAX_VARIANT_LIST_PARMS, h1, List.getElem?_eq_getElem hl]

/-- C10, amended: for every VariantList whose slots hold only serializable
types and whose string slots each hold a text shorter than 2^32 bytes (a
length the 4-byte length field of the record can express), SerializeFromMem
(into any destination list) applied to the bytes and the length produced by
SerializeToMem succeeds, consumes all the bytes, and yields a list in which
every index 0..5 has the same type and the same value as the original, unused
gaps included. -/
theorem serialize_roundtrip (l dst : VariantList)
    (hser : ∀ v ∈ l.m_variant, v.m_type ≠ TYPE_ENTITY ∧ v.m_type ≠ TYPE_COMPONENT)
    (hstr : ∀ v ∈ l.m_variant, v.m_type = TYPE_STRING → v.m_string.length < 4294967296) :
    ∃ out, dst.SerializeFromMem l.SerializeToMem.1 (toI32 l.SerializeToMem.2)
        = Except.ok (out, l.SerializeToMem.1.length) ∧
      ∀ i : Nat, i < 6 → ∃ a b, out.Get (i : Int) = SlotAccess.slot i a ∧
        l.Get (i : Int) = SlotAccess.slot i b ∧
        a.m_type = b.m_type ∧ valueBytes a = valueBytes b := by
  have h1 : l.SerializeToMem.1 = encodeSlots l.m_variant := rfl
  have hlen : dst.m_variant.length = l.m_variant.length := by
    rw [dst.size_eq, l.size_eq]
  obtain ⟨out, hout, hrel⟩ := decodeSlots_encodeSlots l.m_variant dst.m_variant [] hlen
    (fun v hv => ⟨(hser v hv).1, (hser v hv).2, hstr v hv⟩)
  rw [List.append_nil] at hout
  refine ⟨⟨out.val, out.property.trans dst.size_eq⟩, ?_, ?_⟩
  · rw [h1]
    simp only [VariantList.SerializeFromMem, hout, List.length_nil, Nat.sub_zero]
  · intro i hi
    have ho : i < out.val.length := by
      rw [out.property, dst.size_eq]; exact hi
    have hl : i < l.m_variant.length := by
      rw [l.size_eq]; exact hi
    exact ⟨out.val.get ⟨i, ho⟩, l.m_variant.get ⟨i, hl⟩,
      Get_in_range_get ⟨out.val, out.property.trans dst.size_eq⟩ i ho,
      Get_in_range_get l i hl, hrel.get ho hl⟩

/-- Witness for C10 (amended): the list of the serialization example in the
source, decoded into a list of six unused slots. -/
theorem serialize_roundtrip_witness :
    (∀ v ∈ exampleList.m_variant, v.m_type ≠ TYPE_ENTITY ∧ v.m_type ≠ TYPE_COMPONENT) ∧
    (∀ v ∈ exampleList.m_variant,
      v.m_type = TYPE_STRING → v.m_string.length < 4294967296) ∧
    ∃ out, emptyList.SerializeFromMem exampleList.SerializeToMem.1
        (toI32 exampleList.SerializeToMem.2)
        = Except.ok (out, exampleList.SerializeToMem.1.length) ∧
      ∀ i : Nat, i < 6 → ∃ a b, out.Get (i : Int) = SlotAccess.slot i a ∧
        exampleList.Get (i : Int) = SlotAccess.slot i b ∧
        a.m_type = b.m_type ∧ valueBytes a = valueBytes b :=
  ⟨by decide, by decide, serialize_roundtrip exampleList emptyList (by decide) (by decide)⟩

/-- The serialization example of the source, evaluated: the 22 encoded bytes,
and the decoded list, whose slot 0 reads back 42 through GetUINT32, whose slot
1 reads back "Hey guys" through GetString, and whose slots 2 to 5 are unused. -/
theorem serialize_example_evaluated :
    exampleList.SerializeToMem =
      ([5, 42, 0, 0, 0, 2, 8, 0, 0, 0, 72, 101, 121, 32, 103, 117, 121, 115, 0, 0, 0, 0],
        22) ∧
    emptyList.SerializeFromMem exampleList.SerializeToMem.1
        (toI32 exampleList.SerializeToMem.2) = Except.ok (exampleList, 22) ∧
    Variant.GetUINT32_const ⟨TYPE_UINT32, 0, payload4 42 0 0 0, []⟩
      = Res.ok 42 ⟨TYPE_UINT32, 0, payload4 42 0 0 0, []⟩ := by
  refine ⟨by decide, by rfl, by decide⟩

theorem fromLE_lt : ∀ bs : List Byte, fromLE bs < 256 ^ bs.length := by
  intro bs
  induction bs with
  | nil => simp [fromLE]
  | cons b bs ih =>
    have hb := b.isLt
    simp only [fromLE, List.length_cons, pow_succ]
    omega

theorem fromLE_take4_lt (r : List Byte) : fromLE (r.take 4) < 4294967296 := by
  have h1 := fromLE_lt (r.take 4)
  have h2 : (r.take 4).length ≤ 4 := by
    rw [List.length_take]; exact Nat.min_le_left _ _
  have h3 : 256 ^ (r.take 4).length ≤ 256 ^ 4 :=
    Nat.pow_le_pow_right (by decide) h2
  have h4 : (256 : Nat) ^ 4 = 4294967296 := by norm_num
  omega

/-- Whatever the buffer holds, a slot decoded as a string has a text shorter
than 2^32 bytes: its length is the value of the 4-byte length field. -/
theorem decodeValue_text_lt (d d1 : Variant) (buf rest : List Byte)
    (h : decodeValue d buf = Except.ok (d1, rest)) (hk : d1.m_type = TYPE_STRING) :
    d1.m_string.length < 4294967296 := by
  cases buf with
  | nil => simp [decodeValue] at h
  | cons t r =>
    simp only [decodeValue] at h
    cases ht : eType.ofTag t.val with
    | none => rw [ht] at h; simp at h
    | some k =>
      rw [ht] at h
      have hN := fromLE_take4_lt r
      cases k <;> simp only [] at h <;> (try split at h) <;> (try split at h) <;>
        simp only [Except.ok.injEq, Prod.mk.injEq, reduceCtorEq] at h <;>
        obtain ⟨h1, -⟩ := h <;> subst h1 <;>
        first
          | (simp only [List.length_take]
             omega)
          | simp at hk

theorem decodeSlots_head (d : Variant) (ds : List Variant) (buf rest : List Byte)
    (out : { o : List Variant // o.length = (d :: ds).length })
    (h : decodeSlots (d :: ds) buf = Except.ok (out, rest)) :
    ∃ d1 r1 tl, decodeValue d buf = Except.ok (d1, r1) ∧ out.val = d1 :: tl := by
  simp only [decodeSlots] at h
  cases hd : decodeValue d buf with
  | error e => rw [hd] at h; simp at h
  | ok p =>
    obtain ⟨d1, r1⟩ := p
    rw [hd] at h
    simp only at h
    cases hs : decodeSlots ds r1 with
    | error e => rw [hs] at h; simp at h
    | ok q =>
      obtain ⟨o, r2⟩ := q
      rw [hs] at h
      simp only [Except.ok.injEq, Prod.mk.injEq] at h
      refine ⟨d1, r1, o.val, rfl, ?_⟩
      rw [← h.1]

/-- No buffer decodes to a list whose slot 0 agrees with a string slot holding
2^32 bytes or more. -/
theorem no_buffer_decodes_long_text (text : List Byte) (hlen : 4294967296 ≤ text.length)
    (dst out : VariantList) (buf : List Byte) (length : Int) (n : Nat)
    (h : dst.SerializeFromMem buf length = Except.ok (out, n)) :
    ¬ ∃ a b, out.Get ((0 : Nat) : Int) = SlotAccess.slot 0 a ∧
      (stringList text).Get ((0 : Nat) : Int) = SlotAccess.slot 0 b ∧
      a.m_type = b.m_type ∧ valueBytes a = valueBytes b := by
  rintro ⟨a, b, ha, hb, hk, hv⟩
  have hb1 : b = ⟨TYPE_STRING, 0, zeroPayload, text⟩ := by
    simp [VariantList.Get, subscript, C_MAX_VARIANT_LIST_PARMS, stringList] at hb
    exact hb.symm
  subst hb1
  have hka : a.m_type = TYPE_STRING := hk
  have hva : a.m_string = text := by
    simpa [valueBytes, hka] using hv
  obtain ⟨m, hm⟩ := dst
  cases m with
  | nil => simp [C_MAX_VARIANT_LIST_PARMS] at hm
  | cons d ds =>
    simp only [VariantList.SerializeFromMem] at h
    cases hd : decodeSlots (d :: ds) buf with
    | error e => rw [hd] at h; simp at h
    | ok q =>
      obtain ⟨o, r⟩ := q
      rw [hd] at h
      simp only [Except.ok.injEq, Prod.mk.injEq] at h
      obtain ⟨d1, r1, tl, hdec, ho⟩ := decodeSlots_head d ds buf r o hd
      have hout : out.m_variant = d1 :: tl := by
        rw [← h.1]; exact ho
      have ha1 : a = d1 := by
        simp [VariantList.Get, subscript, C_MAX_VARIANT_LIST_PARMS, hout] at ha
        exact ha.symm
      subst ha1
      have := decodeValue_text_lt d a buf r1 hdec hka
      rw [hva] at this
      omega

theorem stringList_serializable (text : List Byte) :
    ∀ v ∈ (stringList text).m_variant,
      v.m_type ≠ TYPE_ENTITY ∧ v.m_type ≠ TYPE_COMPONENT := by
  intro v hv
  simp only [stringList, unusedVariant, List.mem_cons, List.mem_singleton,
    List.not_mem_nil, or_false, or_self] at hv
  rcases hv with hv | hv <;> subst hv <;> exact ⟨by simp, by simp⟩

theorem roundtrip_fails_of_long_text (text : List Byte) (hlen : 4294967296 ≤ text.length)
    (dst : VariantList) :
    (¬ ∃ out n, dst.SerializeFromMem (stringList text).SerializeToMem.1
        (toI32 (stringList text).SerializeToMem.2) = Except.ok (out, n) ∧
      ∀ i : Nat, i < 6 → ∃ a b, out.Get (i : Int) = SlotAccess.slot i a ∧
        (stringList text).Get (i : Int) = SlotAccess.slot i b ∧
        a.m_type = b.m_type ∧ valueBytes a = valueBytes b) ∧
    (¬ ∃ buf length out n, dst.SerializeFromMem buf length = Except.ok (out, n) ∧
      ∀ i : Nat, i < 6 → ∃ a b, out.Get (i : Int) = SlotAccess.slot i a ∧
        (stringList text).Get (i : Int) = SlotAccess.slot i b ∧
        a.m_type = b.m_type ∧ valueBytes a = valueBytes b) := by
  refine ⟨?_, ?_⟩
  · rintro ⟨out, n, h, hall⟩
    exact no_buffer_decodes_long_text text hlen dst out _ _ n h (hall 0 (by decide))
  · rintro ⟨buf, length, out, n, h, hall⟩
    exact no_buffer_decodes_long_text text hlen dst out buf length n h (hall 0 (by decide))

/-- C10, counterexample: a list whose slot 0 holds a string of 2^32 zero bytes
and whose other slots are unused holds only serializable types, yet decoding
the bytes and the length that SerializeToMem produces for it does not succeed
with a list that has the same type and value at every index. The record of a
string carries a 4-byte length, so the text of a decoded string slot is always
shorter than 2^32 bytes: no buffer and no length at all decode to this list. -/
theorem serialize_roundtrip_fails_on_4GiB_text :
    (∀ v ∈ (stringList (List.replicate 4294967296 0)).m_variant,
      v.m_type ≠ TYPE_ENTITY ∧ v.m_type ≠ TYPE_COMPONENT) ∧
    (¬ ∃ out n, emptyList.SerializeFromMem
        (stringList (List.replicate 4294967296 0)).SerializeToMem.1
        (toI32 (stringList (List.replicate 4294967296 0)).SerializeToMem.2)
        = Except.ok (out, n) ∧
      ∀ i : Nat, i < 6 → ∃ a b, out.Get (i : Int) = SlotAccess.slot i a ∧
        (stringList (List.replicate 4294967296 0)).Get (i : Int) = SlotAccess.slot i b ∧
        a.m_type = b.m_type ∧ valueBytes a = valueBytes b) ∧
    (¬ ∃ buf length out n, emptyList.SerializeFromMem buf length = Except.ok (out, n) ∧
      ∀ i : Nat, i < 6 → ∃ a b, out.Get (i : Int) = SlotAccess.slot i a ∧
        (stringList (List.replicate 4294967296 0)).Get (i : Int) = SlotAccess.slot i b ∧
        a.m_type = b.m_type ∧ valueBytes a = valueBytes b) :=
  ⟨stringList_serializable _,
    roundtrip_fails_of_long_text _ (Nat.le_of_eq (List.length_replicate _ _).symm) emptyList⟩

/-! ### VariantList constructors and Reset -/

theorem VariantList.eq_six (l : VariantList) :
    ∃ a b c d e f, ∃ h, l = ⟨[a, b, c, d, e, f], h⟩ := by
  obtain ⟨m, hm⟩ := l
  rcases m with _ | ⟨a, _ | ⟨b, _ | ⟨c, _ | ⟨d, _ | ⟨e, _ | ⟨f, _ | ⟨g, m⟩⟩⟩⟩⟩⟩⟩ <;>
    simp [C_MAX_VARIANT_LIST_PARMS] at hm
  exact ⟨a, b, c, d, e, f, rfl, rfl⟩

theorem operatorAssign_eq (d s : Variant) : Variant.operatorAssign d s = s := by
  cases s
  simp [Variant.operatorAssign, memcpy_full]

theorem Get_of_six (l : VariantList) (a b c d e f : Variant)
    (hl : l.m_variant = [a, b, c, d, e, f]) :
    l.Get 0 = SlotAccess.slot 0 a ∧ l.Get 1 = SlotAccess.slot 1 b ∧
    l.Get 2 = SlotAccess.slot 2 c ∧ l.Get 3 = SlotAccess.slot 3 d ∧
    l.Get 4 = SlotAccess.slot 4 e ∧ l.Get 5 = SlotAccess.slot 5 f := by
  refine ⟨?_, ?_, ?_, ?_, ?_, ?_⟩ <;>
  simp [VariantList.Get, subscript, C_MAX_VARIANT_LIST_PARMS, hl]

theorem unusedFrom_of_six (l : VariantList) (a b c d e f : Variant)
    (hl : l.m_variant = [a, b, c, d, e, f]) (n : Nat)
    (ha : n ≤ 0 → a.m_type = TYPE_UNUSED) (hb : n ≤ 1 → b.m_type = TYPE_UNUSED)
    (hc : n ≤ 2 → c.m_type = TYPE_UNUSED) (hd : n ≤ 3 → d.m_type = TYPE_UNUSED)
    (he : n ≤ 4 → e.m_type = TYPE_UNUSED) (hf : n ≤ 5 → f.m_type = TYPE_UNUSED) :
    l.unusedFrom n := by
  intro i h1 h2
  obtain ⟨g0, g1, g2, g3, g4, g5⟩ := Get_of_six l a b c d e f hl
  interval_cases i
  · exact ⟨a, g0, ha h1⟩
  · exact ⟨b, g1, hb h1⟩
  · exact ⟨c, g2, hc h1⟩
  · exact ⟨d, g3, hd h1⟩
  · exact ⟨e, g4, he h1⟩
  · exact ⟨f, g5, hf h1⟩

theorem constructors_of_six (a b c d e f : Variant) (h) (v0 v1 v2 v3 v4 v5 : Variant) :
    (VariantList.VariantList0 ⟨[a, b, c, d, e, f], h⟩).m_variant
      = [a.Variant_default, b.Variant_default, c.Variant_default, d.Variant_default,
         e.Variant_default, f.Variant_default] ∧
    (VariantList.VariantList1 ⟨[a, b, c, d, e, f], h⟩ v0).m_variant
      = [v0, b.Variant_default, c.Variant_default, d.Variant_default,
         e.Variant_default, f.Variant_default] ∧
    (VariantList.VariantList2 ⟨[a, b, c, d, e, f], h⟩ v0 v1).m_variant
      = [v0, v1, c.Variant_default, d.Variant_default, e.Variant_default,
         f.Variant_default] ∧
    (VariantList.VariantList3 ⟨[a, b, c, d, e, f], h⟩ v0 v1 v2).m_variant
      = [v0, v1, v2, d.Variant_default, e.Variant_default, f.Variant_default] ∧
    (VariantList.VariantList4 ⟨[a, b, c, d, e, f], h⟩ v0 v1 v2 v3).m_variant
      = [v0, v1, v2, v3, e.Variant_default, f.Variant_default] ∧
    (VariantList.VariantList5 ⟨[a, b, c, d, e, f], h⟩ v0 v1 v2 v3 v4).m_variant
      = [v0, v1, v2, v3, v4, f.Variant_default] ∧
    (VariantList.VariantList6 ⟨[a, b, c, d, e, f], h⟩ v0 v1 v2 v3 v4 v5).m_variant
      = [v0, v1, v2, v3, v4, v5] := by
  have k3 : ((3 : Fin 6) : Nat) = 3 := rfl
  have k4 : ((4 : Fin 6) : Nat) = 4 := rfl
  have k5 : ((5 : Fin 6) : Nat) = 5 := rfl
  refine ⟨?_, ?_, ?_, ?_, ?_, ?_, ?_⟩ <;>
  simp [VariantList.VariantList0, VariantList.VariantList1, VariantList.VariantList2,
    VariantList.VariantList3, VariantList.VariantList4, VariantList.VariantList5,
    VariantList.VariantList6, VariantList.assignSlot, VariantList.update,
    VariantList.slotAt, operatorAssign_eq, k3, k4, k5]

theorem Variant_default_unused (r : Variant) : r.Variant_default.m_type = TYPE_UNUSED := rfl

/-- C11: a default-constructed VariantList has all six slots of type
TYPE_UNUSED, and for every n from 1 to 6 the n-argument constructor yields a
list whose slot i equals v_i (type, payload, m_pVoid and text) for every i
below n and whose slots n to 5 have type TYPE_UNUSED. -/
theorem constructors_fill_slots (raw : VariantList) (v0 v1 v2 v3 v4 v5 : Variant) :
    (VariantList.VariantList0 raw).unusedFrom 0 ∧
    ((VariantList.VariantList1 raw v0).Get 0 = SlotAccess.slot 0 v0 ∧
      (VariantList.VariantList1 raw v0).unusedFrom 1) ∧
    ((VariantList.VariantList2 raw v0 v1).Get 0 = SlotAccess.slot 0 v0 ∧
      (VariantList.VariantList2 raw v0 v1).Get 1 = SlotAccess.slot 1 v1 ∧
      (VariantList.VariantList2 raw v0 v1).unusedFrom 2) ∧
    ((VariantList.VariantList3 raw v0 v1 v2).Get 0 = SlotAccess.slot 0 v0 ∧
      (VariantList.VariantList3 raw v0 v1 v2).Get 1 = SlotAccess.slot 1 v1 ∧
      (VariantList.VariantList3 raw v0 v1 v2).Get 2 = SlotAccess.slot 2 v2 ∧
      (VariantList.VariantList3 raw v0 v1 v2).unusedFrom 3) ∧
    ((VariantList.VariantList4 raw v0 v1 v2 v3).Get 0 = SlotAccess.slot 0 v0 ∧
      (VariantList.VariantList4 raw v0 v1 v2 v3).Get 1 = SlotAccess.slot 1 v1 ∧
      (VariantList.VariantList4 raw v0 v1 v2 v3).Get 2 = SlotAccess.slot 2 v2 ∧
      (VariantList.VariantList4 raw v0 v1 v2 v3).Get 3 = SlotAccess.slot 3 v3 ∧
      (VariantList.VariantList4 raw v0 v1 v2 v3).unusedFrom 4) ∧
    ((VariantList.VariantList5 raw v0 v1 v2 v3 v4).Get 0 = SlotAccess.slot 0 v0 ∧
      (VariantList.VariantList5 raw v0 v1 v2 v3 v4).Get 1 = SlotAccess.slot 1 v1 ∧
      (VariantList.VariantList5 raw v0 v1 v2 v3 v4).Get 2 = SlotAccess.slot 2 v2 ∧
      (VariantList.VariantList5 raw v0 v1 v2 v3 v4).Get 3 = SlotAccess.slot 3 v3 ∧
      (VariantList.VariantList5 raw v0 v1 v2 v3 v4).Get 4 = SlotAccess.slot 4 v4 ∧
      (VariantList.VariantList5 raw v0 v1 v2 v3 v4).unusedFrom 5) ∧
    ((VariantList.VariantList6 raw v0 v1 v2 v3 v4 v5).Get 0 = SlotAccess.slot 0 v0 ∧
      (VariantList.VariantList6 raw v0 v1 v2 v3 v4 v5).Get 1 = SlotAccess.slot 1 v1 ∧
      (VariantList.VariantList6 raw v0 v1 v2 v3 v4 v5).Get 2 = SlotAccess.slot 2 v2 ∧
      (VariantList.VariantList6 raw v0 v1 v2 v3 v4 v5).Get 3 = SlotAccess.slot 3 v3 ∧
      (VariantList.VariantList6 raw v0 v1 v2 v3 v4 v5).Get 4 = SlotAccess.slot 4 v4 ∧
      (VariantList.VariantList6 raw v0 v1 v2 v3 v4 v5).Get 5 = SlotAccess.slot 5 v5) := by
  obtain ⟨a, b, c, d, e, f, h, rfl⟩ := raw.eq_six
  obtain ⟨c0, c1, c2, c3, c4, c5, c6⟩ := constructors_of_six a b c d e f h v0 v1 v2 v3 v4 v5
  have u := Variant_default_unused
  have g1 := Get_of_six _ _ _ _ _ _ _ c1
  have g2 := Get_of_six _ _ _ _ _ _ _ c2
  have g3 := Get_of_six _ _ _ _ _ _ _ c3
  have g4 := Get_of_six _ _ _ _ _ _ _ c4
  have g5 := Get_of_six _ _ _ _ _ _ _ c5
  have g6 := Get_of_six _ _ _ _ _ _ _ c6
  refine ⟨?_, ⟨g1.1, ?_⟩, ⟨g2.1, g2.2.1, ?_⟩, ⟨g3.1, g3.2.1, g3.2.2.1, ?_⟩,
    ⟨g4.1, g4.2.1, g4.2.2.1, g4.2.2.2.1, ?_⟩,
    ⟨g5.1, g5.2.1, g5.2.2.1, g5.2.2.2.1, g5.2.2.2.2.1, ?_⟩, g6⟩
  · exact unusedFrom_of_six _ _ _ _ _ _ _ c0 0 (fun _ => u a) (fun _ => u b) (fun _ => u c)
      (fun _ => u d) (fun _ => u e) (fun _ => u f)
  · exact unusedFrom_of_six _ _ _ _ _ _ _ c1 1 (fun k => absurd k (by decide)) (fun _ => u b)
      (fun _ => u c) (fun _ => u d) (fun _ => u e) (fun _ => u f)
  · exact unusedFrom_of_six _ _ _ _ _ _ _ c2 2 (fun k => absurd k (by decide))
      (fun k => absurd k (by decide)) (fun _ => u c) (fun _ => u d) (fun _ => u e)
      (fun _ => u f)
  · exact unusedFrom_of_six _ _ _ _ _ _ _ c3 3 (fun k => absurd k (by decide))
      (fun k => absurd k (by decide)) (fun k => absurd k (by decide)) (fun _ => u d)
      (fun _ => u e) (fun _ => u f)
  · exact unusedFrom_of_six _ _ _ _ _ _ _ c4 4 (fun k => absurd k (by decide))
      (fun k => absurd k (by decide)) (fun k => absurd k (by decide))
      (fun k => absurd k (by decide)) (fun _ => u e) (fun _ => u f)
  · exact unusedFrom_of_six _ _ _ _ _ _ _ c5 5 (fun k => absurd k (by decide))
      (fun k => absurd k (by decide)) (fun k => absurd k (by decide))
      (fun k => absurd k (by decide)) (fun k => absurd k (by decide)) (fun _ => u f)

theorem Reset_of_six (a b c d e f : Variant) (h) :
    (VariantList.Reset ⟨[a, b, c, d, e, f], h⟩).m_variant
      = [a.Reset, b.Reset, c.Reset, d.Reset, e.Reset, f.Reset] := rfl

theorem VariantList.ext_m_variant (l1 l2 : VariantList) (h : l1.m_variant = l2.m_variant) :
    l1 = l2 := by
  cases l1; cases l2; simp only [VariantList.mk.injEq]; exact h

/-- C12: for every VariantList, Reset leaves every slot 0..5 with type
TYPE_UNUSED, and resetting a second time changes nothing. -/
theorem list_reset_all_unused (l : VariantList) :
    (VariantList.Reset l).unusedFrom 0 ∧
    VariantList.Reset (VariantList.Reset l) = VariantList.Reset l := by
  obtain ⟨a, b, c, d, e, f, h, rfl⟩ := l.eq_six
  have r := Reset_of_six a b c d e f h
  refine ⟨?_, ?_⟩
  · exact unusedFrom_of_six _ _ _ _ _ _ _ r 0 (fun _ => rfl) (fun _ => rfl) (fun _ => rfl)
      (fun _ => rfl) (fun _ => rfl) (fun _ => rfl)
  · have e : VariantList.Reset ⟨[a, b, c, d, e, f], h⟩
        = ⟨[a.Reset, b.Reset, c.Reset, d.Reset, e.Reset, f.Reset], by rfl⟩ :=
      VariantList.ext_m_variant _ _ r
    rw [e]
    apply VariantList.ext_m_variant
    rw [Reset_of_six]
    rfl

/-! ### Variant constructors -/

/-- C13: the default constructor yields a Variant of type TYPE_UNUSED, and for
every x the constructors from a float, a uint32 and an int32 never fail and
yield a Variant of type TYPE_FLOAT, TYPE_UINT32 and TYPE_INT32 respectively
whose const getter returns x. -/
theorem constructors_set_kind_and_value (raw : Variant) (f u : Nat) (i : Int)
    (hf : f < 4294967296) (hu : u < 4294967296)
    (hi1 : -2147483648 ≤ i) (hi2 : i < 2147483648) :
    (Variant.Variant_default raw).m_type = TYPE_UNUSED ∧
    (∃ s, Variant.Variant_float raw f = Res.ok () s ∧ s.m_type = TYPE_FLOAT ∧
      Variant.GetFloat_const s = Res.ok f s) ∧
    (∃ s, Variant.Variant_uint32 raw u = Res.ok () s ∧ s.m_type = TYPE_UINT32 ∧
      Variant.GetUINT32_const s = Res.ok u s) ∧
    (∃ s, Variant.Variant_int32 raw i = Res.ok () s ∧ s.m_type = TYPE_INT32 ∧
      Variant.GetINT32_const s = Res.ok i s) := by
  refine ⟨rfl, ⟨_, Variant.Set_float_ok _ f (Or.inl rfl), rfl, ?_⟩,
    ⟨_, Variant.Set_uint32_ok _ u (Or.inl rfl), rfl, ?_⟩,
    ⟨_, Variant.Set_int32_ok _ i (Or.inl rfl), rfl, ?_⟩⟩ <;>
  simp [Variant.GetFloat_const, Variant.GetUINT32_const, Variant.GetINT32_const,
    Variant.SetDefaults, load32_store32 _ _ hf, load32_store32 _ _ hu,
    load32_store32 _ _ (toU32_lt i), toI32_toU32 i hi1 hi2,
    Nat.mod_eq_of_lt hf, Nat.mod_eq_of_lt hu]

/-- Witness for C13: storage with leftover bytes, the float pattern
1065353216 (1.0f), the uint32 4294967295 and the int32 -2147483648. -/
theorem constructors_set_kind_and_value_witness :
    (Variant.Variant_default ⟨TYPE_RECT, 7, payload4 9 9 9 9, [1]⟩).m_type = TYPE_UNUSED ∧
    (∃ s, Variant.Variant_float ⟨TYPE_RECT, 7, payload4 9 9 9 9, [1]⟩ 1065353216
        = Res.ok () s ∧ s.m_type = TYPE_FLOAT ∧
      Variant.GetFloat_const s = Res.ok 1065353216 s) ∧
    (∃ s, Variant.Variant_uint32 ⟨TYPE_RECT, 7, payload4 9 9 9 9, [1]⟩ 4294967295
        = Res.ok () s ∧ s.m_type = TYPE_UINT32 ∧
      Variant.GetUINT32_const s = Res.ok 4294967295 s) ∧
    (∃ s, Variant.Variant_int32 ⟨TYPE_RECT, 7, payload4 9 9 9 9, [1]⟩ (-2147483648)
        = Res.ok () s ∧ s.m_type = TYPE_INT32 ∧
      Variant.GetINT32_const s = Res.ok (-2147483648) s) :=
  constructors_set_kind_and_value ⟨TYPE_RECT, 7, payload4 9 9 9 9, [1]⟩ 1065353216
    4294967295 (-2147483648) (by decide) (by decide) (by decide) (by decide)

/-! ### Stability of the type under Set and Get -/

theorem Call.run_keeps_kind (v v1 : Variant) (c : Call) (h : c.run v = some v1)
    (hk : v.m_type ≠ TYPE_UNUSED) : v1.m_type = v.m_type := by
  cases c with
  | setFloat x =>
    simp only [Call.run, Variant.Set_float] at h
    split at h
    · rename_i hc
      simp only [Res.success, Option.some.injEq] at h
      subst h
      rcases hc with hc | hc
      · exact absurd hc hk
      · exact hc.symm
    · simp [Res.success] at h
  | setUINT32 x =>
    simp only [Call.run, Variant.Set_uint32] at h
    split at h
    · rename_i hc
      simp only [Res.success, Option.some.injEq] at h
      subst h
      rcases hc with hc | hc
      · exact absurd hc hk
      · exact hc.symm
    · simp [Res.success] at h
  | setINT32 x =>
    simp only [Call.run, Variant.Set_int32] at h
    split at h
    · rename_i hc
      simp only [Res.success, Option.some.injEq] at h
      subst h
      rcases hc with hc | hc
      · exact absurd hc hk
      · exact hc.symm
    · simp [Res.success] at h
  | getFloat =>
    simp only [Call.run, Variant.GetFloat, if_neg hk] at h
    split at h
    · simp only [Res.success, Option.some.injEq] at h
      subst h; rfl
    · simp [Res.success] at h
  | getUINT32 =>
    simp only [Call.run, Variant.GetUINT32, if_neg hk, Res.success, Option.some.injEq] at h
    subst h; rfl
  | getINT32 =>
    simp only [Call.run, Variant.GetINT32, if_neg hk] at h
    split at h
    · simp only [Res.success, Option.some.injEq] at h
      subst h; rfl
    · simp [Res.success] at h

theorem runCalls_keeps_kind : ∀ (cs : List Call) (v v1 : Variant),
    runCalls v cs = some v1 → v.m_type ≠ TYPE_UNUSED → v1.m_type = v.m_type := by
  intro cs
  induction cs with
  | nil =>
    intro v v1 h _
    simp only [runCalls, Option.some.injEq] at h
    subst h; rfl
  | cons c cs ih =>
    intro v v1 h hk
    simp only [runCalls] at h
    cases hc : c.run v with
    | none => rw [hc] at h; simp at h
    | some w =>
      rw [hc] at h
      have hw := Call.run_keeps_kind v w c hc hk
      have := ih w v1 h (by rw [hw]; exact hk)
      rw [this, hw]

/-- C14: take any Variant and any finite sequence of calls of Set(float),
Set(uint32), Set(int32) and the mutable GetFloat, GetUINT32, GetINT32 in which
every call succeeds. Once the type is not TYPE_UNUSED (after the calls `pre`),
it is the same after any further such calls `post`. Reset and copy-assignment,
in contrast, do set the type: to TYPE_UNUSED and to the type of the source. -/
theorem kind_is_stable (v v1 v2 : Variant) (pre post : List Call)
    (h1 : runCalls v pre = some v1) (hk : v1.m_type ≠ TYPE_UNUSED)
    (h2 : runCalls v1 post = some v2) :
    v2.m_type = v1.m_type ∧ runCalls v (pre ++ post) = some v2 ∧
    (Variant.Reset v2).m_type = TYPE_UNUSED ∧
    ∀ s : Variant, (Variant.operatorAssign v2 s).m_type = s.m_type := by
  refine ⟨runCalls_keeps_kind post v1 v2 h2 hk, ?_, rfl, fun s => rfl⟩
  clear hk
  induction pre generalizing v with
  | nil =>
    simp only [runCalls, Option.some.injEq] at h1
    subst h1
    simpa using h2
  | cons c cs ih =>
    simp only [runCalls, List.cons_append] at h1 ⊢
    cases hc : c.run v with
    | none => rw [hc] at h1; simp at h1
    | some w =>
      rw [hc] at h1
      simp only
      exact ih w h1

/-- Witness for C14: an unused Variant; Set(uint32 42) and GetUINT32 make it a
uint32, then Set(uint32 7), GetUINT32 and Set(uint32 9) follow. -/
theorem kind_is_stable_witness :
    runCalls unusedVariant [Call.setUINT32 42, Call.getUINT32]
      = some ⟨TYPE_UINT32, 0, payload4 42 0 0 0, []⟩ ∧
    (⟨TYPE_UINT32, 0, payload4 42 0 0 0, []⟩ : Variant).m_type ≠ TYPE_UNUSED ∧
    runCalls ⟨TYPE_UINT32, 0, payload4 42 0 0 0, []⟩
      [Call.setUINT32 7, Call.getUINT32, Call.setUINT32 9]
      = some ⟨TYPE_UINT32, 0, payload4 9 0 0 0, []⟩ ∧
    (⟨TYPE_UINT32, 0, payload4 9 0 0 0, []⟩ : Variant).m_type
      = (⟨TYPE_UINT32, 0, payload4 42 0 0 0, []⟩ : Variant).m_type :=
  ⟨by decide, by decide, by decide,
    (kind_is_stable unusedVariant ⟨TYPE_UINT32, 0, payload4 42 0 0 0, []⟩
      ⟨TYPE_UINT32, 0, payload4 9 0 0 0, []⟩ [Call.setUINT32 42, Call.getUINT32]
      [Call.setUINT32 7, Call.getUINT32, Call.setUINT32 9]
      (by decide) (by decide) (by decide)).1⟩

/-! ### Calls through VariantList::Get -/

theorem Get_update (l : VariantList) (i j : Nat) (w : Variant) (hi : i < 6) (hj : j < 6) :
    (l.update i w).Get (j : Int)
      = if i = j then SlotAccess.slot j w else l.Get (j : Int) := by
  have hl : l.m_variant.length = 6 := l.size_eq
  have h1 : (j : Int) < 6 := by omega
  by_cases hij : i = j
  · subst hij
    simp [VariantList.Get, subscript, VariantList.update, C_MAX_VARIANT_LIST_PARMS, h1,
      List.getElem?_set, hl, hi]
  · simp [VariantList.Get, subscript, VariantList.update, C_MAX_VARIANT_LIST_PARMS, h1,
      List.getElem?_set, hij]

theorem callOnSlot_frame {α : Type} (l : VariantList) (i : Nat) (hi : i < 6)
    (op : Variant → Res α) (v : Variant) (hv : l.Get (i : Int) = SlotAccess.slot i v) :
    ∃ l1, (l.callOnSlot (i : Int) op).list = some l1 ∧
      l1.Get (i : Int) = SlotAccess.slot i (op v).state ∧
      ∀ j : Nat, j < 6 → j ≠ i → l1.Get (j : Int) = l.Get (j : Int) := by
  cases hop : op v with
  | ok r v1 =>
    refine ⟨l.update i v1, ?_, ?_, ?_⟩
    · simp [VariantList.callOnSlot, hv, hop, SlotRes.list]
    · rw [Get_update l i i v1 hi hi]; simp [Res.state]
    · intro j hj hne
      rw [Get_update l i j v1 hi hj, if_neg (fun e => hne e.symm)]
  | assertFailed v1 =>
    refine ⟨l.update i v1, ?_, ?_, ?_⟩
    · simp [VariantList.callOnSlot, hv, hop, SlotRes.list]
    · rw [Get_update l i i v1 hi hi]; simp [Res.state]
    · intro j hj hne
      rw [Get_update l i j v1 hi hj, if_neg (fun e => hne e.symm)]

/-- C15: for every VariantList and every index i in 0..5, Get(i) succeeds and
denotes the array element i; a Set (of a float, uint32 or int32) or a Reset
made through Get(i) leaves in slot i the Variant that call produces and leaves
every slot j other than i exactly as it was. -/
theorem slot_calls_change_one_slot (l : VariantList) (i : Nat) (hi : i < 6)
    (f u : Nat) (x : Int) :
    ∃ v, l.Get (i : Int) = SlotAccess.slot i v ∧ l.m_variant[i]? = some v ∧
      (∃ l1, (l.callOnSlot (i : Int) (fun s => Variant.Set_float s f)).list = some l1 ∧
        l1.Get (i : Int) = SlotAccess.slot i (Variant.Set_float v f).state ∧
        ∀ j : Nat, j < 6 → j ≠ i → l1.Get (j : Int) = l.Get (j : Int)) ∧
      (∃ l1, (l.callOnSlot (i : Int) (fun s => Variant.Set_uint32 s u)).list = some l1 ∧
        l1.Get (i : Int) = SlotAccess.slot i (Variant.Set_uint32 v u).state ∧
        ∀ j : Nat, j < 6 → j ≠ i → l1.Get (j : Int) = l.Get (j : Int)) ∧
      (∃ l1, (l.callOnSlot (i : Int) (fun s => Variant.Set_int32 s x)).list = some l1 ∧
        l1.Get (i : Int) = SlotAccess.slot i (Variant.Set_int32 v x).state ∧
        ∀ j : Nat, j < 6 → j ≠ i → l1.Get (j : Int) = l.Get (j : Int)) ∧
      (∃ l1, (l.callOnSlot (i : Int) Variant.Reset_call).list = some l1 ∧
        l1.Get (i : Int) = SlotAccess.slot i (Variant.Reset v) ∧
        ∀ j : Nat, j < 6 → j ≠ i → l1.Get (j : Int) = l.Get (j : Int)) := by
  obtain ⟨v, hv1, hv2⟩ := Get_in_range l i hi
  exact ⟨v, hv2, hv1, callOnSlot_frame l i hi _ v hv2, callOnSlot_frame l i hi _ v hv2,
    callOnSlot_frame l i hi _ v hv2, callOnSlot_frame l i hi Variant.Reset_call v hv2⟩

/-- Witness for C15: the example list (uint32 42, "Hey guys", four unused
slots) and index 2. -/
theorem slot_calls_change_one_slot_witness :
    ∃ v, exampleList.Get ((2 : Nat) : Int) = SlotAccess.slot 2 v ∧
      exampleList.m_variant[2]? = some v ∧
      (∃ l1, (exampleList.callOnSlot ((2 : Nat) : Int)
          (fun s => Variant.Set_float s 1065353216)).list = some l1 ∧
        l1.Get ((2 : Nat) : Int) = SlotAccess.slot 2 (Variant.Set_float v 1065353216).state ∧
        ∀ j : Nat, j < 6 → j ≠ 2 → l1.Get (j : Int) = exampleList.Get (j : Int)) ∧
      (∃ l1, (exampleList.callOnSlot ((2 : Nat) : Int)
          (fun s => Variant.Set_uint32 s 7)).list = some l1 ∧
        l1.Get ((2 : Nat) : Int) = SlotAccess.slot 2 (Variant.Set_uint32 v 7).state ∧
        ∀ j : Nat, j < 6 → j ≠ 2 → l1.Get (j : Int) = exampleList.Get (j : Int)) ∧
      (∃ l1, (exampleList.callOnSlot ((2 : Nat) : Int)
          (fun s => Variant.Set_int32 s (-5))).list = some l1 ∧
        l1.Get ((2 : Nat) : Int) = SlotAccess.slot 2 (Variant.Set_int32 v (-5)).state ∧
        ∀ j : Nat, j < 6 → j ≠ 2 → l1.Get (j : Int) = exampleList.Get (j : Int)) ∧
      (∃ l1, (exampleList.callOnSlot ((2 : Nat) : Int) Variant.Reset_call).list = some l1 ∧
        l1.Get ((2 : Nat) : Int) = SlotAccess.slot 2 (Variant.Reset v) ∧
        ∀ j : Nat, j < 6 → j ≠ 2 → l1.Get (j : Int) = exampleList.Get (j : Int)) :=
  slot_calls_change_one_slot exampleList 2 (by decide) 1065353216 7 (-5)

/-! ### Reset of a Variant, and GetUINT32 on an int32 -/

/-- C16: for every Variant, Reset changes the type only: the 16 payload bytes,
m_pVoid and the text are what they were before the call, so GetString (mutable
or const) after Reset still returns the old text. -/
theorem reset_changes_kind_only (v : Variant) :
    (Variant.Reset v).m_type = TYPE_UNUSED ∧
    (Variant.Reset v).m_var = v.m_var ∧
    (Variant.Reset v).m_pVoid = v.m_pVoid ∧
    (Variant.Reset v).m_string = v.m_string ∧
    Variant.GetString (Variant.Reset v) = Res.ok v.m_string (Variant.Reset v) ∧
    Variant.GetString_const (Variant.Reset v) = Res.ok v.m_string (Variant.Reset v) :=
  ⟨rfl, rfl, rfl, rfl, rfl, rfl⟩

theorem load32_lt (p : Payload) : load32 p < 4294967296 := by
  have h1 := fromLE_lt (p.bytes.take 4)
  have h2 : (p.bytes.take 4).length ≤ 4 := by
    rw [List.length_take]; exact Nat.min_le_left _ _
  have h3 : 256 ^ (p.bytes.take 4).length ≤ 256 ^ 4 :=
    Nat.pow_le_pow_right (by decide) h2
  have h4 : (256 : Nat) ^ 4 = 4294967296 := by norm_num
  unfold load32
  omega

theorem toU32_toI32 (u : Nat) (h : u < 4294967296) : toU32 (toI32 u) = u := by
  unfold toU32 toI32
  have h1 : u % 4294967296 = u := Nat.mod_eq_of_lt h
  rw [h1]
  split <;> omega

/-- C17: on a Variant of type TYPE_INT32 holding x (the const GetINT32 returns
x), the mutable GetUINT32 does not fail, leaves the Variant and its type
TYPE_INT32 as they are and returns x mod 2^32, whereas the const GetUINT32
fails on its assertion. -/
theorem mutable_GetUINT32_reinterprets_int32 (v : Variant) (x : Int)
    (h : Variant.GetINT32_const v = Res.ok x v) :
    v.m_type = TYPE_INT32 ∧
    Variant.GetUINT32 v = Res.ok (x % 4294967296).toNat v ∧
    Variant.GetUINT32_const v = Res.assertFailed v := by
  have hk : v.m_type = TYPE_INT32 := by
    by_contra hne
    simp [Variant.GetINT32_const, hne] at h
  have hx : toI32 (load32 v.m_var) = x := by
    simpa [Variant.GetINT32_const, hk] using h
  have hu : load32 v.m_var = (x % 4294967296).toNat := by
    rw [← hx]
    exact (toU32_toI32 _ (load32_lt v.m_var)).symm
  refine ⟨hk, ?_, ?_⟩
  · rw [Variant.GetUINT32_of_used v (by rw [hk]; decide), hu]
  · simp [Variant.GetUINT32_const, hk]

/-- Witness for C17: an int32 Variant holding -1 (payload bytes ff ff ff ff);
the mutable GetUINT32 returns 4294967295. -/
theorem mutable_GetUINT32_reinterprets_int32_witness :
    Variant.GetINT32_const ⟨TYPE_INT32, 0, payload4 255 255 255 255, []⟩
      = Res.ok (-1) ⟨TYPE_INT32, 0, payload4 255 255 255 255, []⟩ ∧
    Variant.GetUINT32 ⟨TYPE_INT32, 0, payload4 255 255 255 255, []⟩
      = Res.ok ((-1 : Int) % 4294967296).toNat
          ⟨TYPE_INT32, 0, payload4 255 255 255 255, []⟩ ∧
    ((-1 : Int) % 4294967296).toNat = 4294967295 ∧
    Variant.GetUINT32_const ⟨TYPE_INT32, 0, payload4 255 255 255 255, []⟩
      = Res.assertFailed ⟨TYPE_INT32, 0, payload4 255 255 255 255, []⟩ :=
  have h := mutable_GetUINT32_reinterprets_int32
    ⟨TYPE_INT32, 0, payload4 255 255 255 255, []⟩ (-1) (by decide)
  ⟨by decide, h.2.1, by decide, h.2.2⟩

end Proton
